import Mathlib

/-!
Verification of the moltworker narrative subsystem (session store, model
manager, persona manager, narrative engine) against its natural-language
specification.  The TypeScript sources are shallowly embedded: JavaScript
`Map`s and plain objects become association lists over `String` keys,
JavaScript numbers become `ℚ` (or `ℤ` where the source only ever holds
integers), `Date.now()` becomes an explicit `now : ℤ` argument,
`Math.random()` becomes an explicit stream `ℕ → ℚ` of rolls, and fallible
operations return `Option`.
-/

namespace Moltworker

/-! ## Association lists: JavaScript `Map` / plain-object semantics -/

/-- Lookup by key, first entry wins (JS `Map.get` / property read). -/
def alGet : List (String × α) → String → Option α
  | [], _ => none
  | (k0, v0) :: rest, k => if k0 = k then some v0 else alGet rest k

/-- JS `Map.set` / property write: overwrite the first entry with the key in
place, append when the key is absent. -/
def alSet : List (String × α) → String → α → List (String × α)
  | [], k, v => [(k, v)]
  | (k0, v0) :: rest, k, v =>
    if k0 = k then (k0, v) :: rest else (k0, v0) :: alSet rest k v

/-- JS `Map.delete`: remove the (first) entry with the key. -/
def alDelete : List (String × α) → String → List (String × α)
  | [], _ => []
  | (k0, v0) :: rest, k =>
    if k0 = k then rest else (k0, v0) :: alDelete rest k

/-- The keys of an association list. -/
def alKeys (l : List (String × α)) : List String :=
  l.map Prod.fst

theorem alGet_alSet_self (l : List (String × α)) (k : String) (v : α) :
    alGet (alSet l k v) k = some v := by
  induction l with
  | nil => simp [alGet, alSet]
  | cons hd tl ih =>
    obtain ⟨k0, v0⟩ := hd
    by_cases h : k0 = k
    · simp [alGet, alSet, h]
    · simpa [alGet, alSet, h] using ih

theorem alGet_alSet_ne (l : List (String × α)) (k k' : String) (v : α)
    (h : k' ≠ k) : alGet (alSet l k v) k' = alGet l k' := by
  have hne : ¬k = k' := fun he => h he.symm
  induction l with
  | nil => simp [alGet, alSet, hne]
  | cons hd tl ih =>
    obtain ⟨k0, v0⟩ := hd
    by_cases hk : k0 = k
    · subst hk
      simp [alGet, alSet, hne]
    · simp only [alSet, if_neg hk, alGet]
      by_cases hk' : k0 = k'
      · simp [hk']
      · simp [hk', ih]

theorem alGet_alDelete_ne (l : List (String × α)) (k k' : String)
    (h : k' ≠ k) : alGet (alDelete l k) k' = alGet l k' := by
  have hne : ¬k = k' := fun he => h he.symm
  induction l with
  | nil => simp [alDelete]
  | cons hd tl ih =>
    obtain ⟨k0, v0⟩ := hd
    by_cases hk : k0 = k
    · subst hk
      simp [alGet, alDelete, hne]
    · simp only [alDelete, if_neg hk, alGet]
      by_cases hk' : k0 = k'
      · simp [hk']
      · simp [hk', ih]

theorem alGet_none_of_not_mem_keys (l : List (String × α)) (k : String)
    (h : k ∉ alKeys l) : alGet l k = none := by
  induction l with
  | nil => simp [alGet]
  | cons hd tl ih =>
    obtain ⟨k0, v0⟩ := hd
    simp only [alKeys, List.map_cons, List.mem_cons, not_or] at h
    simp only [alGet, if_neg (fun he : k0 = k => h.1 he.symm)]
    exact ih h.2

theorem alGet_alDelete_self (l : List (String × α)) (k : String)
    (hnd : (alKeys l).Nodup) : alGet (alDelete l k) k = none := by
  induction l with
  | nil => simp [alDelete, alGet]
  | cons hd tl ih =>
    obtain ⟨k0, v0⟩ := hd
    simp only [alKeys, List.map_cons, List.nodup_cons] at hnd
    by_cases hk : k0 = k
    · subst hk
      simp only [alDelete, if_pos rfl]
      exact alGet_none_of_not_mem_keys tl k0 hnd.1
    · simp only [alDelete, if_neg hk, alGet, if_neg hk]
      exact ih hnd.2

theorem alKeys_alSet (l : List (String × α)) (k : String) (v : α) :
    alKeys (alSet l k v) = if k ∈ alKeys l then alKeys l else alKeys l ++ [k] := by
  induction l with
  | nil => simp [alSet, alKeys]
  | cons hd tl ih =>
    obtain ⟨k0, v0⟩ := hd
    by_cases hk : k0 = k
    · subst hk
      simp [alSet, alKeys]
    · simp only [alSet, if_neg hk, alKeys, List.map_cons, List.mem_cons]
      have hne : ¬k = k0 := fun he => hk he.symm
      have ih2 : List.map Prod.fst (alSet tl k v) =
          if k ∈ alKeys tl then alKeys tl else alKeys tl ++ [k] := ih
      rw [ih2]
      by_cases hmem : k ∈ alKeys tl
      all_goals simp only [alKeys] at hmem
      · simp [hmem, hne, alKeys]
      · simp [hmem, hne, alKeys]

theorem alKeys_alSet_nodup (l : List (String × α)) (k : String) (v : α)
    (hnd : (alKeys l).Nodup) : (alKeys (alSet l k v)).Nodup := by
  rw [alKeys_alSet]
  by_cases hmem : k ∈ alKeys l
  · simpa [hmem] using hnd
  · simp only [hmem, if_false]
    refine List.Nodup.append hnd (List.nodup_singleton k) ?_
    intro a ha hak
    rw [List.mem_singleton] at hak
    exact hmem (hak ▸ ha)

theorem alKeys_alDelete_sublist (l : List (String × α)) (k : String) :
    (alKeys (alDelete l k)).Sublist (alKeys l) := by
  induction l with
  | nil => simp [alDelete]
  | cons hd tl ih =>
    obtain ⟨k0, v0⟩ := hd
    by_cases hk : k0 = k
    · simp only [alDelete, if_pos hk, alKeys, List.map_cons]
      exact List.sublist_cons_of_sublist _ (List.Sublist.refl _)
    · simp only [alDelete, if_neg hk, alKeys, List.map_cons]
      exact List.Sublist.cons₂ _ ih

theorem alKeys_alDelete_nodup (l : List (String × α)) (k : String)
    (hnd : (alKeys l).Nodup) : (alKeys (alDelete l k)).Nodup :=
  (alKeys_alDelete_sublist l k).nodup hnd

theorem alGet_mem (l : List (String × α)) (k : String) (v : α)
    (h : alGet l k = some v) : (k, v) ∈ l := by
  induction l with
  | nil => simp [alGet] at h
  | cons hd tl ih =>
    obtain ⟨k0, v0⟩ := hd
    by_cases hk : k0 = k
    · subst hk
      simp only [alGet, eq_self_iff_true, if_true, Option.some.injEq] at h
      subst h
      exact List.mem_cons_self _ _
    · simp only [alGet, if_neg hk] at h
      exact List.mem_cons_of_mem _ (ih h)

/-! ## JavaScript values

Session variables, environmental factors and consequence payloads are typed
`unknown` in the source; they are embedded as a JSON-like value type. -/

inductive Value where
  | vNull : Value
  | vBool : Bool → Value
  | vNum : ℚ → Value
  | vStr : String → Value
  | vArr : List Value → Value
  | vObj : List (String × Value) → Value

mutual

def Value.beq : Value → Value → Bool
  | .vNull, .vNull => true
  | .vBool a, .vBool b => a == b
  | .vNum a, .vNum b => a == b
  | .vStr a, .vStr b => a == b
  | .vArr a, .vArr b => Value.beqList a b
  | .vObj a, .vObj b => Value.beqObj a b
  | _, _ => false

def Value.beqList : List Value → List Value → Bool
  | [], [] => true
  | a :: as, b :: bs => Value.beq a b && Value.beqList as bs
  | _, _ => false

def Value.beqObj : List (String × Value) → List (String × Value) → Bool
  | [], [] => true
  | (ka, va) :: as, (kb, vb) :: bs =>
    ka == kb && Value.beq va vb && Value.beqObj as bs
  | _, _ => false

end

instance : BEq Value := ⟨Value.beq⟩

mutual

theorem Value.beq_eq : ∀ a b : Value, Value.beq a b = true → a = b
  | .vNull, .vNull, _ => rfl
  | .vBool a, .vBool b, h => by
    simp only [Value.beq, beq_iff_eq] at h
    exact h ▸ rfl
  | .vNum a, .vNum b, h => by
    simp only [Value.beq, beq_iff_eq] at h
    exact h ▸ rfl
  | .vStr a, .vStr b, h => by
    simp only [Value.beq, beq_iff_eq] at h
    exact h ▸ rfl
  | .vArr a, .vArr b, h => by
    rw [Value.beqList_eq a b (by simpa [Value.beq] using h)]
  | .vObj a, .vObj b, h => by
    rw [Value.beqObj_eq a b (by simpa [Value.beq] using h)]

theorem Value.beqList_eq : ∀ a b : List Value, Value.beqList a b = true → a = b
  | [], [], _ => rfl
  | a :: as, b :: bs, h => by
    simp only [Value.beqList, Bool.and_eq_true] at h
    rw [Value.beq_eq a b h.1, Value.beqList_eq as bs h.2]

theorem Value.beqObj_eq :
    ∀ a b : List (String × Value), Value.beqObj a b = true → a = b
  | [], [], _ => rfl
  | (ka, va) :: as, (kb, vb) :: bs, h => by
    simp only [Value.beqObj, Bool.and_eq_true, beq_iff_eq] at h
    rw [h.1.1, Value.beq_eq va vb h.1.2, Value.beqObj_eq as bs h.2]

end

mutual

theorem Value.beq_refl : ∀ a : Value, Value.beq a a = true
  | .vNull => rfl
  | .vBool a => by simp [Value.beq]
  | .vNum a => by simp [Value.beq]
  | .vStr a => by simp [Value.beq]
  | .vArr a => by simpa [Value.beq] using Value.beqList_refl a
  | .vObj a => by simpa [Value.beq] using Value.beqObj_refl a

theorem Value.beqList_refl : ∀ a : List Value, Value.beqList a a = true
  | [] => rfl
  | a :: as => by
    simp only [Value.beqList, Bool.and_eq_true]
    exact ⟨Value.beq_refl a, Value.beqList_refl as⟩

theorem Value.beqObj_refl :
    ∀ a : List (String × Value), Value.beqObj a a = true
  | [] => rfl
  | (ka, va) :: as => by
    simp [Value.beqObj, Value.beq_refl va, Value.beqObj_refl as]

end

instance : DecidableEq Value := fun a b =>
  if h : Value.beq a b = true then
    isTrue (Value.beq_eq a b h)
  else
    isFalse (fun he => h (he ▸ Value.beq_refl a))

/-! ## Data model (narrative/types.ts)

JavaScript numbers are embedded as `ℚ`; quantities that are integral in the
source (timestamps from `Date.now()`, playtime in ms, the 0-100 tension level
that only ever moves in steps of 20, session counts) are embedded as `ℤ`.
Optional TypeScript fields become `Option`. -/

structure EmotionalTransition where
  «from» : String
  «to» : String
  trigger : String
  duration : ℚ
deriving DecidableEq

structure EmotionalTone where
  primary : String
  secondary : Option String
  intensity : ℚ
  transitions : List EmotionalTransition
deriving DecidableEq

structure ChoiceCondition where
  type : String
  operator : String
  «variable» : String
  value : Option Value
deriving DecidableEq

structure StoryConsequence where
  type : String
  target : String
  value : Value
  delay : Option ℚ
deriving DecidableEq

structure EmotionalImpact where
  primary : String
  intensity : ℚ
deriving DecidableEq

structure StoryChoice where
  id : String
  text : String
  description : Option String
  targetNode : String
  conditions : Option (List ChoiceCondition)
  consequences : Option (List StoryConsequence)
  emotionalImpact : Option EmotionalImpact
  voiceProfile : Option String
deriving DecidableEq

structure NarrativeState where
  currentNode : String
  storyPath : List String
  choices : List StoryChoice
  «variables» : List (String × Value)
  emotionalTone : EmotionalTone
  pacing : String
  tensionLevel : ℤ
  lastActionAt : ℤ
deriving DecidableEq

structure WorldState where
  timeOfDay : String
  location : String
  weather : Option String
  activeCharacters : List String
  recentEvents : List String
  environmentalFactors : List (String × Value)
deriving DecidableEq

structure VoiceProfile where
  id : String
  provider : String
  model : String
  voiceId : String
  accent : Option String
  pitch : ℚ
  speed : ℚ
  emotion : String
  warmth : ℚ
  assertiveness : ℚ
  breathiness : ℚ
deriving DecidableEq

structure CharacterState where
  id : String
  name : String
  disposition : ℚ
  relationship : String
  emotionalState : String
  knowledge : List String
  secrets : List String
  voiceProfile : Option VoiceProfile
deriving DecidableEq

structure PlayerPreferences where
  preferredGenres : List String
  matureContentAllowed : Bool
  violenceLevel : String
  romanceLevel : String
  pacingPreference : String
  voiceSpeed : ℚ
  voiceStyle : String
deriving DecidableEq

structure NarrativeContext where
  worldState : WorldState
  characterStates : List (String × CharacterState)
  plotProgression : ℚ
  activeThreads : List String
  completedMilestones : List String
  foreshadowing : List String
  playerPreferences : PlayerPreferences
deriving DecidableEq

structure SavePoint where
  id : String
  nodeId : String
  timestamp : ℤ
  description : String
  thumbnail : Option String
deriving DecidableEq

structure SessionMetadata where
  totalPlaytime : ℤ
  sessionCount : ℤ
  savePoints : List SavePoint
  achievements : List String
  customFlags : List (String × Bool)
deriving DecidableEq

structure SpeechPattern where
  triggers : List String
  patterns : List String
  replacement : String
  probability : ℚ
deriving DecidableEq

structure PersonalityTraits where
  openness : ℚ
  conscientiousness : ℚ
  extraversion : ℚ
  agreeableness : ℚ
  neuroticism : ℚ
  customTraits : List (String × ℚ)
deriving DecidableEq

structure PersonaRelationship where
  withPersonaId : String
  type : String
  strength : ℚ
  dynamic : String
deriving DecidableEq

structure VisualDescription where
  race : Option String
  age : Option String
  build : Option String
  features : List String
  clothing : List String
  imagePrompt : Option String
deriving DecidableEq

structure Persona where
  id : String
  name : String
  role : String
  voiceProfile : VoiceProfile
  personality : PersonalityTraits
  backstory : String
  speechPatterns : List SpeechPattern
  emotionalRange : List String
  relationships : List PersonaRelationship
  uncensored : Bool
  appearance : Option VisualDescription
deriving DecidableEq

structure NarrativeSession where
  id : String
  storyId : String
  playerId : String
  channel : String
  state : NarrativeState
  context : NarrativeContext
  personas : List (String × Persona)
  createdAt : ℤ
  updatedAt : ℤ
  metadata : SessionMetadata
deriving DecidableEq

/-! ## SessionManager (session.ts)

The module-level `sessions` and `sessionExpiry` maps together with the
manager's `expiryMs` form the store state.  `Date.now()` becomes an explicit
`now` argument; the `uuidv4()` of `createSession`/`createSavePoint` becomes an
explicit id argument.  The constructor's `cleanupLoop` background sweep is a
timer, not part of any operation; the claims below concern the lazy expiry
check, which needs no sweep. -/

structure SessionStore where
  sessions : List (String × NarrativeSession)
  sessionExpiry : List (String × ℤ)
  expiryMs : ℤ
deriving DecidableEq

/-- `DEFAULT_EXPIRY_MS = 7 * 24 * 60 * 60 * 1000` (7 days). -/
def DEFAULT_EXPIRY_MS : ℤ := 7 * 24 * 60 * 60 * 1000

/-- The store state of a freshly constructed `SessionManager` over the empty
module-level maps. -/
def emptyStore (expiryMs : ℤ) : SessionStore :=
  { sessions := [], sessionExpiry := [], expiryMs := expiryMs }

/-- `SessionManager.createSession`: the fresh uuid is passed as `sessionId`. -/
def createSession (st : SessionStore) (sessionId storyId playerId : String)
    (channel : String) (initialNode : String)
    (personas : List (String × Persona)) (now : ℤ) :
    NarrativeSession × SessionStore :=
  let session : NarrativeSession :=
    { id := sessionId
      storyId := storyId
      playerId := playerId
      channel := channel
      state :=
        { currentNode := initialNode
          storyPath := [initialNode]
          choices := []
          «variables» := []
          emotionalTone :=
            { primary := "neutral"
              secondary := none
              intensity := mkRat 1 2  -- 0.5
              transitions := [] }
          pacing := "moderate"
          tensionLevel := 0
          lastActionAt := now }
      context :=
        { worldState :=
            { timeOfDay := "day"
              location := "unknown"
              weather := none
              activeCharacters := []
              recentEvents := []
              environmentalFactors := [] }
          characterStates := []
          plotProgression := 0
          activeThreads := []
          completedMilestones := []
          foreshadowing := []
          playerPreferences :=
            { preferredGenres := []
              matureContentAllowed := false
              violenceLevel := "none"
              romanceLevel := "none"
              pacingPreference := "moderate"
              voiceSpeed := 1  -- 1.0
              voiceStyle := "natural" } }
      personas := personas
      createdAt := now
      updatedAt := now
      metadata :=
        { totalPlaytime := 0
          sessionCount := 1
          savePoints := []
          achievements := []
          customFlags := [] } }
  (session,
    { st with
      sessions := alSet st.sessions sessionId session
      sessionExpiry := alSet st.sessionExpiry sessionId (now + st.expiryMs) })

/-- `SessionManager.deleteSession`. -/
def deleteSession (st : SessionStore) (sessionId : String) : SessionStore :=
  { st with
    sessions := alDelete st.sessions sessionId
    sessionExpiry := alDelete st.sessionExpiry sessionId }

/-- `SessionManager.getSession`: lazy expiry check on every read.  The JS
guard `if (expiry && Date.now() > expiry)` tests the number for truthiness,
hence the `expiry ≠ 0` conjunct. -/
def getSession (st : SessionStore) (sessionId : String) (now : ℤ) :
    Option NarrativeSession × SessionStore :=
  match alGet st.sessions sessionId with
  | none => (none, st)
  | some session =>
    match alGet st.sessionExpiry sessionId with
    | some expiry =>
      if expiry ≠ 0 ∧ now > expiry then (none, deleteSession st sessionId)
      else (some session, st)
    | none => (some session, st)

/-- `Partial<NarrativeState>`: every field optional. -/
structure NarrativeStateUpdate where
  currentNode : Option String := none
  storyPath : Option (List String) := none
  choices : Option (List StoryChoice) := none
  «variables» : Option (List (String × Value)) := none
  emotionalTone : Option EmotionalTone := none
  pacing : Option String := none
  tensionLevel : Option ℤ := none
  lastActionAt : Option ℤ := none
deriving DecidableEq

/-- The spread `{ ...session.state, ...updates }`. -/
def mergeState (s : NarrativeState) (u : NarrativeStateUpdate) : NarrativeState :=
  { currentNode := u.currentNode.getD s.currentNode
    storyPath := u.storyPath.getD s.storyPath
    choices := u.choices.getD s.choices
    «variables» := u.«variables».getD s.«variables»
    emotionalTone := u.emotionalTone.getD s.emotionalTone
    pacing := u.pacing.getD s.pacing
    tensionLevel := u.tensionLevel.getD s.tensionLevel
    lastActionAt := u.lastActionAt.getD s.lastActionAt }

/-- `SessionManager.updateState`.  Note the source merges `updates` into
`session.state` first and only then compares `updates.currentNode` with the
(already merged) `session.state.currentNode`; the `cn ≠ ""` conjunct is the
JS truthiness test on the string. -/
def updateState (st : SessionStore) (sessionId : String)
    (updates : NarrativeStateUpdate) (now : ℤ) :
    Option NarrativeSession × SessionStore :=
  match getSession st sessionId now with
  | (none, st1) => (none, st1)
  | (some session, st1) =>
    let merged := mergeState session.state updates
    let merged := { merged with lastActionAt := now }
    let session := { session with state := merged, updatedAt := now }
    let session :=
      match updates.currentNode with
      | some cn =>
        if cn ≠ "" ∧ cn ≠ session.state.currentNode then
          { session with
            state := { session.state with
              storyPath := session.state.storyPath ++ [cn] } }
        else session
      | none => session
    (some session, { st1 with sessions := alSet st1.sessions sessionId session })

/-- `SessionManager.setChoices`. -/
def setChoices (st : SessionStore) (sessionId : String)
    (choices : List StoryChoice) (now : ℤ) : SessionStore :=
  match getSession st sessionId now with
  | (none, st1) => st1
  | (some session, st1) =>
    let session := { session with
      state := { session.state with choices := choices }
      updatedAt := now }
    { st1 with sessions := alSet st1.sessions sessionId session }

/-- `SessionManager.setEmotionalTone`. -/
def setEmotionalTone (st : SessionStore) (sessionId : String)
    (tone : EmotionalTone) (now : ℤ) : SessionStore :=
  match getSession st sessionId now with
  | (none, st1) => st1
  | (some session, st1) =>
    let session := { session with
      state := { session.state with emotionalTone := tone }
      updatedAt := now }
    { st1 with sessions := alSet st1.sessions sessionId session }

/-- `SessionManager.setVariable`. -/
def setVariable (st : SessionStore) (sessionId : String) (key : String)
    (value : Value) (now : ℤ) : SessionStore :=
  match getSession st sessionId now with
  | (none, st1) => st1
  | (some session, st1) =>
    let session := { session with
      state := { session.state with
        «variables» := alSet session.state.«variables» key value }
      updatedAt := now }
    { st1 with sessions := alSet st1.sessions sessionId session }

/-- `SessionManager.addPlaytime`. -/
def addPlaytime (st : SessionStore) (sessionId : String) (milliseconds : ℤ)
    (now : ℤ) : SessionStore :=
  match getSession st sessionId now with
  | (none, st1) => st1
  | (some session, st1) =>
    let session := { session with
      metadata := { session.metadata with
        totalPlaytime := session.metadata.totalPlaytime + milliseconds }
      updatedAt := now }
    { st1 with sessions := alSet st1.sessions sessionId session }

/-- `SessionManager.createSavePoint`: the fresh uuid is passed as `spId`. -/
def createSavePoint (st : SessionStore) (sessionId spId : String)
    (description : String) (thumbnail : Option String) (now : ℤ) :
    Option SavePoint × SessionStore :=
  match getSession st sessionId now with
  | (none, st1) => (none, st1)
  | (some session, st1) =>
    let savePoint : SavePoint :=
      { id := spId
        nodeId := session.state.currentNode
        timestamp := now
        description := description
        thumbnail := thumbnail }
    let session := { session with
      metadata := { session.metadata with
        savePoints := session.metadata.savePoints ++ [savePoint] }
      updatedAt := now }
    (some savePoint, { st1 with sessions := alSet st1.sessions sessionId session })

/-- `SessionManager.loadSavePoint`: the deliberately shallow restore (only
`currentNode`). -/
def loadSavePoint (st : SessionStore) (sessionId savePointId : String)
    (now : ℤ) : Option NarrativeSession × SessionStore :=
  match getSession st sessionId now with
  | (none, st1) => (none, st1)
  | (some session, st1) =>
    match session.metadata.savePoints.find? (fun sp => sp.id == savePointId) with
    | none => (none, st1)
    | some savePoint =>
      let session := { session with
        state := { session.state with currentNode := savePoint.nodeId }
        updatedAt := now }
      (some session, { st1 with sessions := alSet st1.sessions sessionId session })

/-! ### Choice consequences (`applyConsequences` / `applyStateChange`) -/

/-- Decode a JS value as a string. -/
def Value.asStr : Value → Option String
  | .vStr s => some s
  | _ => none

/-- Decode a JS value as an array of strings. -/
def Value.asStrList : Value → Option (List String)
  | .vArr xs => xs.mapM Value.asStr
  | _ => none

/-- Decode a JS value as an integral number. -/
def Value.asInt : Value → Option ℤ
  | .vNum q => if q.den = 1 then some q.num else none
  | _ => none

/-- The single-segment case of `applyStateChange`:
`(session.state as Record<string, unknown>)[target] = value`.  The JS source
assigns through an untyped cast; this typed model performs the write when the
value fits the declared field type of `NarrativeState` and leaves the state
unchanged otherwise (such a write would leave the object outside its declared
TypeScript type; no theorem below depends on that case). -/
def setStateField (s : NarrativeState) (target : String) (v : Value) :
    NarrativeState :=
  if target = "currentNode" then
    match v.asStr with
    | some x => { s with currentNode := x }
    | none => s
  else if target = "storyPath" then
    match v.asStrList with
    | some xs => { s with storyPath := xs }
    | none => s
  else if target = "pacing" then
    match v.asStr with
    | some x => { s with pacing := x }
    | none => s
  else if target = "tensionLevel" then
    match v.asInt with
    | some x => { s with tensionLevel := x }
    | none => s
  else if target = "lastActionAt" then
    match v.asInt with
    | some x => { s with lastActionAt := x }
    | none => s
  else s

/-- Nested write into `session.context.worldState.<nestedKey>` for the
`context.<key>.<nestedKey>` case of `applyStateChange`; same typed-model
restriction as `setStateField`. -/
def setWorldStateField (w : WorldState) (key : String) (v : Value) :
    WorldState :=
  if key = "timeOfDay" then
    match v.asStr with
    | some x => { w with timeOfDay := x }
    | none => w
  else if key = "location" then
    match v.asStr with
    | some x => { w with location := x }
    | none => w
  else if key = "weather" then
    match v.asStr with
    | some x => { w with weather := some x }
    | none => w
  else w

/-- The `context.<key>.<nestedKey>` case of `applyStateChange`.  The source
guards with `typeof session.context[contextKey] === 'object'`; of the object
valued context fields only the `worldState` record has named sub-properties in
the declared types, so only it is written in this typed model. -/
def setContextNested (c : NarrativeContext) (contextKey nestedKey : String)
    (v : Value) : NarrativeContext :=
  if contextKey = "worldState" then
    { c with worldState := setWorldStateField c.worldState nestedKey v }
  else c

/-- `SessionManager.applyStateChange`: splits the target on `.`; a single
segment writes a state field, `context.<key>.<nestedKey>` writes a nested
context field (`parts[2]` must be truthy), anything else does nothing. -/
def applyStateChange (session : NarrativeSession) (target : String)
    (value : Value) : NarrativeSession :=
  let parts := target.splitOn "."
  match parts with
  | [_] => { session with state := setStateField session.state target value }
  | p0 :: _p1 :: rest =>
    if p0 = "context" then
      match rest.head? with
      | some nested =>
        if nested ≠ "" then
          { session with
            context := setContextNested session.context _p1 nested value }
        else session
      | none => session
    else session
  | [] => session

/-- One iteration of the `applyConsequences` loop; the `voice` consequence
type has no case in the source switch and falls through. -/
def applyConsequence (session : NarrativeSession) (c : StoryConsequence) :
    NarrativeSession :=
  if c.type = "variable" then
    { session with
      state := { session.state with
        «variables» := alSet session.state.«variables» c.target c.value } }
  else if c.type = "state" then
    applyStateChange session c.target c.value
  else if c.type = "branch" then
    { session with
      state := { session.state with
        storyPath := session.state.storyPath ++ [c.target] } }
  else if c.type = "event" then
    { session with
      context := { session.context with
        activeThreads := session.context.activeThreads ++ [c.target] } }
  else session

/-- `SessionManager.applyConsequences`: the early return on a falsy
`choice.consequences` (absent list) and the loop. -/
def applyConsequences (session : NarrativeSession) (choice : StoryChoice) :
    NarrativeSession :=
  match choice.consequences with
  | none => session
  | some cs => cs.foldl applyConsequence session

/-- `SessionManager.makeChoice`: look up the choice among the currently
offered choices, apply consequences, advance `currentNode` and the path,
clear the offered set, and overwrite the emotional tone when the choice
carries an `emotionalImpact`. -/
def makeChoice (st : SessionStore) (sessionId choiceId : String) (now : ℤ) :
    (Option NarrativeSession × Option String) × SessionStore :=
  match getSession st sessionId now with
  | (none, st1) => ((none, none), st1)
  | (some session, st1) =>
    match session.state.choices.find? (fun c => c.id == choiceId) with
    | none => ((none, none), st1)
    | some choice =>
      let session := applyConsequences session choice
      let session := { session with
        state := { session.state with
          currentNode := choice.targetNode
          storyPath := session.state.storyPath ++ [choice.targetNode]
          choices := [] } }
      let session :=
        match choice.emotionalImpact with
        | some ei =>
          { session with
            state := { session.state with
              emotionalTone := { session.state.emotionalTone with
                primary := ei.primary
                intensity := ei.intensity } } }
        | none => session
      let session := { session with updatedAt := now }
      ((some session, some choice.targetNode),
        { st1 with sessions := alSet st1.sessions sessionId session })

/-! ### Session export / import

`exportSession` JSON-stringifies the session after flattening the
`characterStates` map into a plain object with `Object.fromEntries`;
`importSession` parses and rebuilds the map with
`new Map(Object.entries(...))`.  The JSON string round trip on the JSON-safe
exported record is the identity and is not re-modelled; what is modelled is
the exported record itself and the two map/object conversions, which share
the fold of key-wise insertion (`objFromEntries`). -/

/-- `Object.fromEntries` / `new Map(entries)`: key-wise insertion, a later
duplicate key overwrites the value at the first occurrence position. -/
def objFromEntries (l : List (String × α)) : List (String × α) :=
  l.foldl (fun acc kv => alSet acc kv.1 kv.2) []

/-- The exported shape of a session: identical except that
`context.characterStates` went through `Object.fromEntries`. -/
structure ExportedSession where
  id : String
  storyId : String
  playerId : String
  channel : String
  state : NarrativeState
  context : NarrativeContext
  personas : List (String × Persona)
  createdAt : ℤ
  updatedAt : ℤ
  metadata : SessionMetadata
deriving DecidableEq

/-- `SessionManager.exportSession`. -/
def exportSession (st : SessionStore) (sessionId : String) (now : ℤ) :
    Option ExportedSession × SessionStore :=
  match getSession st sessionId now with
  | (none, st1) => (none, st1)
  | (some session, st1) =>
    (some
      { id := session.id
        storyId := session.storyId
        playerId := session.playerId
        channel := session.channel
        state := session.state
        context := { session.context with
          characterStates := objFromEntries session.context.characterStates }
        personas := session.personas
        createdAt := session.createdAt
        updatedAt := session.updatedAt
        metadata := session.metadata }, st1)

/-- `SessionManager.importSession`: rebuild the `characterStates` map, store
the session and give it a fresh TTL entry.  The `try/catch` of the source
only catches unparsable JSON, which a well-typed `ExportedSession` cannot
produce. -/
def importSession (st : SessionStore) (data : ExportedSession) (now : ℤ) :
    Option NarrativeSession × SessionStore :=
  let parsed : NarrativeSession :=
    { id := data.id
      storyId := data.storyId
      playerId := data.playerId
      channel := data.channel
      state := data.state
      context := { data.context with
        characterStates := objFromEntries data.context.characterStates }
      personas := data.personas
      createdAt := data.createdAt
      updatedAt := data.updatedAt
      metadata := data.metadata }
  (some parsed,
    { st with
      sessions := alSet st.sessions parsed.id parsed
      sessionExpiry := alSet st.sessionExpiry parsed.id (now + st.expiryMs) })

/-! ## ModelManager (model-integration.ts)

`Array.prototype.sort` with a numeric comparator is (per ES2019) a stable
sort; it is embedded as a stable insertion sort driven by the comparator:
an element already in place stays before a later one unless the comparator
orders it strictly after. -/

/-- Stable insertion of `x` (originally to the left of `l`) into sorted `l`:
walk past every `y` that the comparator places strictly before `x`. -/
def jsSortInsert (cmp : α → α → ℚ) (x : α) : List α → List α
  | [] => [x]
  | y :: ys =>
    if cmp y x < 0 then y :: jsSortInsert cmp x ys else x :: y :: ys

/-- Stable comparator sort (`Array.prototype.sort(cmp)`). -/
def jsSort (cmp : α → α → ℚ) (l : List α) : List α :=
  l.foldr (jsSortInsert cmp) []

theorem mem_jsSortInsert (cmp : α → α → ℚ) (x a : α) (l : List α) :
    a ∈ jsSortInsert cmp x l ↔ a = x ∨ a ∈ l := by
  induction l with
  | nil => simp [jsSortInsert]
  | cons y ys ih =>
    by_cases h : cmp y x < 0
    · simp only [jsSortInsert, if_pos h, List.mem_cons, ih]
      tauto
    · simp only [jsSortInsert, if_neg h, List.mem_cons]

theorem mem_jsSort (cmp : α → α → ℚ) (a : α) (l : List α) :
    a ∈ jsSort cmp l ↔ a ∈ l := by
  induction l with
  | nil => simp [jsSort]
  | cons y ys ih =>
    simp only [jsSort, List.foldr_cons, mem_jsSortInsert, List.mem_cons]
    rw [show List.foldr (jsSortInsert cmp) [] ys = jsSort cmp ys from rfl, ih]

theorem jsSort_ne_nil (cmp : α → α → ℚ) (x : α) (l : List α) (h : x ∈ l) :
    jsSort cmp l ≠ [] := by
  intro he
  rw [← mem_jsSort cmp x l] at h
  rw [he] at h
  exact List.not_mem_nil x h

/-- `ModelConfig` descriptor. -/
structure ModelConfig where
  id : String
  name : String
  provider : String
  endpoint : Option String
  capabilities : List String
  contextWindow : ℚ
  maxOutput : ℚ
  quality : ℚ
  speed : ℚ
  censorshipLevel : ℚ
  costPerToken : ℚ
  rateLimitRpm : ℚ
deriving DecidableEq

/-- Mutable health record kept out-of-band from the descriptor. -/
structure HealthInfo where
  healthy : Bool
  lastCheck : ℤ
  latency : ℚ
deriving DecidableEq

structure ModelFallbackChain where
  requestType : String
  chain : List String
  currentIndex : ℕ
deriving DecidableEq

structure ModelRotationConfig where
  primaryModel : String
  fallbackModels : List String
  rotationStrategy : String
  healthCheckInterval : ℚ
  failureThreshold : ℚ
deriving DecidableEq

/-- The `ModelManager` instance state. -/
structure ModelManager where
  models : List (String × ModelConfig)
  rotationConfig : ModelRotationConfig
  fallbackChains : List (String × ModelFallbackChain)
  healthStatus : List (String × HealthInfo)
  usageCount : List (String × ℚ)
deriving DecidableEq

/-- The constructor's default rotation config. -/
def defaultRotationConfig : ModelRotationConfig :=
  { primaryModel := "llama-3.2-90b"
    fallbackModels := ["llama-3.1-70b", "mistral-22b", "gemma-2-27b"]
    rotationStrategy := "quality_based"
    healthCheckInterval := 30000
    failureThreshold := 3 }

/-- `DEFAULT_MODELS` from model-integration.ts. -/
def DEFAULT_MODELS : List ModelConfig :=
  [{ id := "llama-3.2-90b", name := "Llama 3.2 90B", provider := "fireworks"
     endpoint := some "https://api.fireworks.ai/inference/v1"
     capabilities := ["text", "creative", "uncensored", "reasoning"]
     contextWindow := 131072, maxOutput := 8192, quality := 10, speed := 7
     censorshipLevel := 0, costPerToken := mkRat 1 10000, rateLimitRpm := 60 },
   { id := "llama-3.1-70b", name := "Llama 3.1 70B", provider := "fireworks"
     endpoint := some "https://api.fireworks.ai/inference/v1"
     capabilities := ["text", "creative", "uncensored", "reasoning"]
     contextWindow := 131072, maxOutput := 8192, quality := 9, speed := 8
     censorshipLevel := 0, costPerToken := mkRat 8 100000, rateLimitRpm := 60 },
   { id := "llama-3.2-3b", name := "Llama 3.2 3B", provider := "ollama"
     endpoint := some "http://localhost:11434"
     capabilities := ["text", "creative", "uncensored"]
     contextWindow := 8192, maxOutput := 4096, quality := 7, speed := 10
     censorshipLevel := 0, costPerToken := 0, rateLimitRpm := 9999 },
   { id := "mistral-7b", name := "Mistral 7B", provider := "ollama"
     endpoint := some "http://localhost:11434"
     capabilities := ["text", "creative", "uncensored", "coding"]
     contextWindow := 32768, maxOutput := 4096, quality := 8, speed := 9
     censorshipLevel := 0, costPerToken := 0, rateLimitRpm := 9999 },
   { id := "mistral-22b", name := "Mistral 22B", provider := "fireworks"
     endpoint := some "https://api.fireworks.ai/inference/v1"
     capabilities := ["text", "creative", "uncensored", "reasoning"]
     contextWindow := 65536, maxOutput := 8192, quality := 10, speed := 6
     censorshipLevel := 0, costPerToken := mkRat 15 100000, rateLimitRpm := 40 },
   { id := "codellama-34b", name := "CodeLlama 34B", provider := "ollama"
     endpoint := some "http://localhost:11434"
     capabilities := ["text", "coding", "uncensored", "reasoning"]
     contextWindow := 16384, maxOutput := 8192, quality := 9, speed := 7
     censorshipLevel := 0, costPerToken := 0, rateLimitRpm := 9999 },
   { id := "phi-3.5-mini", name := "Phi-3.5 Mini", provider := "ollama"
     endpoint := some "http://localhost:11434"
     capabilities := ["text", "reasoning", "coding", "uncensored"]
     contextWindow := 131072, maxOutput := 4096, quality := 8, speed := 10
     censorshipLevel := 0, costPerToken := 0, rateLimitRpm := 9999 },
   { id := "gemma-2-27b", name := "Gemma 2 27B", provider := "fireworks"
     endpoint := some "https://api.fireworks.ai/inference/v1"
     capabilities := ["text", "creative", "uncensored", "reasoning"]
     contextWindow := 8192, maxOutput := 4096, quality := 9, speed := 8
     censorshipLevel := 0, costPerToken := mkRat 5 100000, rateLimitRpm := 80 },
   { id := "deepseek-coder-33b", name := "DeepSeek Coder 33B", provider := "ollama"
     endpoint := some "http://localhost:11434"
     capabilities := ["text", "coding", "creative", "uncensored"]
     contextWindow := 16384, maxOutput := 8192, quality := 9, speed := 7
     censorshipLevel := 0, costPerToken := 0, rateLimitRpm := 9999 },
   { id := "dolphin-mixtral-8x7b", name := "Dolphin Mixtral 8x7B", provider := "ollama"
     endpoint := some "http://localhost:11434"
     capabilities := ["text", "creative", "uncensored", "reasoning"]
     contextWindow := 32768, maxOutput := 8192, quality := 9, speed := 6
     censorshipLevel := 0, costPerToken := 0, rateLimitRpm := 9999 },
   { id := "wizard-vicuna-13b", name := "Wizard Vicuna 13B", provider := "ollama"
     endpoint := some "http://localhost:11434"
     capabilities := ["text", "creative", "uncensored", "reasoning"]
     contextWindow := 16384, maxOutput := 4096, quality := 8, speed := 8
     censorshipLevel := 0, costPerToken := 0, rateLimitRpm := 9999 },
   { id := "nous-hermes-2-mixtral", name := "Nous Hermes 2 Mixtral", provider := "ollama"
     endpoint := some "http://localhost:11434"
     capabilities := ["text", "creative", "uncensored", "reasoning"]
     contextWindow := 32768, maxOutput := 8192, quality := 9, speed := 7
     censorshipLevel := 0, costPerToken := 0, rateLimitRpm := 9999 }]

/-- `ModelManager.registerModel`: store the descriptor and default the health
entry to healthy. -/
def registerModel (mgr : ModelManager) (model : ModelConfig) (now : ℤ) :
    ModelManager :=
  { mgr with
    models := alSet mgr.models model.id model
    healthStatus := alSet mgr.healthStatus model.id
      { healthy := true, lastCheck := now, latency := 0 } }

/-- The constructor: empty maps, default rotation config, then
`initializeModels` registers every `DEFAULT_MODELS` entry. -/
def mkModelManager (now : ℤ) : ModelManager :=
  DEFAULT_MODELS.foldl (fun mgr m => registerModel mgr m now)
    { models := []
      rotationConfig := defaultRotationConfig
      fallbackChains := []
      healthStatus := []
      usageCount := [] }

/-- Truthiness of `this.healthStatus.get(id)?.healthy`: a missing entry is
falsy. -/
def healthyOf (mgr : ModelManager) (modelId : String) : Bool :=
  match alGet mgr.healthStatus modelId with
  | some h => h.healthy
  | none => false

/-- The comparator used (twice, inline) by the source: uncensored
(`censorshipLevel === 0`) models first, then by descending quality. -/
def uncensoredQualityCmp (a b : ModelConfig) : ℚ :=
  let aU : ℚ := if a.censorshipLevel = 0 then 1 else 0
  let bU : ℚ := if b.censorshipLevel = 0 then 1 else 0
  if aU ≠ bU then bU - aU else b.quality - a.quality

/-- `ModelManager.getModelsByCapability`. -/
def getModelsByCapability (mgr : ModelManager) (capability : String) :
    List ModelConfig :=
  jsSort uncensoredQualityCmp
    ((mgr.models.map Prod.snd).filter (fun m => m.capabilities.contains capability))

/-- `ModelManager.getCapabilityForRequest`: the fixed request-type map with
`'text'` default. -/
def getCapabilityForRequest (requestType : String) : String :=
  (alGet
    [("story_generation", "creative"), ("dialogue", "creative"),
     ("branching_logic", "reasoning"), ("world_building", "creative"),
     ("voice_synthesis", "voice")] requestType).getD "text"

/-- `ModelManager.buildChainForRequest`. -/
def buildChainForRequest (mgr : ModelManager) (requestType : String) :
    List String :=
  let capability := getCapabilityForRequest requestType
  let models := getModelsByCapability mgr capability
  if requestType = "story_generation" ∨ requestType = "dialogue" then
    (models.filter (fun m => m.censorshipLevel == 0)).map (fun m => m.id)
  else
    models.map (fun m => m.id)

/-- `ModelManager.getFallbackChain`: lazily build and cache the chain per
request type. -/
def getFallbackChain (mgr : ModelManager) (requestType : String) :
    ModelFallbackChain × ModelManager :=
  match alGet mgr.fallbackChains requestType with
  | some chain => (chain, mgr)
  | none =>
    let chain : ModelFallbackChain :=
      { requestType := requestType
        chain := buildChainForRequest mgr requestType
        currentIndex := 0 }
    (chain, { mgr with fallbackChains := alSet mgr.fallbackChains requestType chain })

/-- `ModelManager.getBestModel`: empty chain short-circuits to null; then
first healthy uncensored chain member; then any healthy model with the
required capability; then any healthy model preferring uncensored/quality. -/
def getBestModel (mgr : ModelManager) (requestType : String) :
    Option ModelConfig × ModelManager :=
  let (chain, mgr1) := getFallbackChain mgr requestType
  if chain.chain = [] then (none, mgr1)
  else
    let firstHealthyUncensored :=
      chain.chain.findSome? (fun modelId =>
        match alGet mgr1.models modelId, alGet mgr1.healthStatus modelId with
        | some model, some health =>
          if health.healthy && model.censorshipLevel == 0 then some model
          else none
        | _, _ => none)
    match firstHealthyUncensored with
    | some model => (some model, mgr1)
    | none =>
      let capability := getCapabilityForRequest requestType
      let capableModels :=
        (getModelsByCapability mgr1 capability).filter
          (fun m => healthyOf mgr1 m.id)
      match capableModels with
      | m :: _ => (some m, mgr1)
      | [] =>
        let healthyModels :=
          jsSort uncensoredQualityCmp
            ((mgr1.models.map Prod.snd).filter (fun m => healthyOf mgr1 m.id))
        (healthyModels.head?, mgr1)

/-- `ModelManager.recordUsage`. -/
def recordUsage (mgr : ModelManager) (modelId : String) : ModelManager :=
  { mgr with
    usageCount := alSet mgr.usageCount modelId
      ((alGet mgr.usageCount modelId).getD 0 + 1) }

/-- `ModelManager.reportFailure`: mark unhealthy (when a health entry exists)
and splice the model id out of every cached chain (`indexOf` + `splice`
removes the first occurrence, `List.erase`). -/
def reportFailure (mgr : ModelManager) (modelId : String) (now : ℤ) :
    ModelManager :=
  { mgr with
    healthStatus :=
      match alGet mgr.healthStatus modelId with
      | some h =>
        alSet mgr.healthStatus modelId { h with healthy := false, lastCheck := now }
      | none => mgr.healthStatus
    fallbackChains := mgr.fallbackChains.map (fun kv =>
      (kv.1, { kv.2 with chain := kv.2.chain.erase modelId })) }

/-- `ModelManager.reportSuccess`: restore health, record latency and usage. -/
def reportSuccess (mgr : ModelManager) (modelId : String) (latency : ℚ)
    (now : ℤ) : ModelManager :=
  recordUsage
    { mgr with
      healthStatus := alSet mgr.healthStatus modelId
        { healthy := true, lastCheck := now, latency := latency } }
    modelId

/-- `ModelManager.setModelHealth` (`latency || 0` on the optional
argument). -/
def setModelHealth (mgr : ModelManager) (modelId : String) (healthy : Bool)
    (latency : Option ℚ) (now : ℤ) : ModelManager :=
  { mgr with
    healthStatus := alSet mgr.healthStatus modelId
      { healthy := healthy, lastCheck := now, latency := latency.getD 0 } }

/-! ## String helpers for the persona text pipeline

`String.prototype.toLowerCase` is embedded as per-character lowering,
`String.prototype.includes` as a substring test, and the JS regex-literal
replacements of `applyPersonality` (`/simple/gi`, `/maybe/i`, `/I think/i`,
`/\./g` — fixed words, so plain substring replacement with or without the
`g` flag and with or without the `i` flag) as the corresponding list-of-char
scans. -/

/-- `toLowerCase`. -/
def jsToLower (s : String) : String :=
  ⟨s.data.map Char.toLower⟩

/-- Case-sensitive prefix test on characters. -/
def charsPrefix : List Char → List Char → Bool
  | [], _ => true
  | _ :: _, [] => false
  | a :: as, b :: bs => a == b && charsPrefix as bs

/-- Case-insensitive prefix test on characters. -/
def charsPrefixCI : List Char → List Char → Bool
  | [], _ => true
  | _ :: _, [] => false
  | a :: as, b :: bs => a.toLower == b.toLower && charsPrefixCI as bs

/-- `String.prototype.includes`. -/
def strIncludes (s pat : String) : Bool :=
  go pat.data s.data
where
  go (pat : List Char) : List Char → Bool
    | [] => pat.isEmpty
    | c :: rest => charsPrefix pat (c :: rest) || go pat rest

/-- Replace every (case-insensitive, non-overlapping, left-to-right)
occurrence of a non-empty fixed pattern (`/pat/gi`).  The fuel is the
haystack length; each step consumes at least one character. -/
def replaceAllCIAux (pat repl : List Char) : ℕ → List Char → List Char
  | 0, hay => hay
  | _ + 1, [] => []
  | n + 1, c :: rest =>
    if pat ≠ [] ∧ charsPrefixCI pat (c :: rest) = true then
      repl ++ replaceAllCIAux pat repl n (List.drop (pat.length - 1) rest)
    else c :: replaceAllCIAux pat repl n rest

/-- `text.replace(/pat/gi, repl)` for a fixed word `pat`. -/
def replaceAllCI (s pat repl : String) : String :=
  ⟨replaceAllCIAux pat.data repl.data s.data.length s.data⟩

/-- Replace the first (case-insensitive) occurrence (`/pat/i`, no `g`). -/
def replaceFirstCIAux (pat repl : List Char) : List Char → List Char
  | [] => []
  | c :: rest =>
    if pat ≠ [] ∧ charsPrefixCI pat (c :: rest) = true then
      repl ++ List.drop (pat.length - 1) rest
    else c :: replaceFirstCIAux pat repl rest

/-- `text.replace(/pat/i, repl)` for a fixed word `pat`. -/
def replaceFirstCI (s pat repl : String) : String :=
  ⟨replaceFirstCIAux pat.data repl.data s.data⟩

/-- Replace every exact occurrence (`/\./g` and similar escaped-literal
global regexes). -/
def replaceAllExactAux (pat repl : List Char) : ℕ → List Char → List Char
  | 0, hay => hay
  | _ + 1, [] => []
  | n + 1, c :: rest =>
    if pat ≠ [] ∧ charsPrefix pat (c :: rest) = true then
      repl ++ replaceAllExactAux pat repl n (List.drop (pat.length - 1) rest)
    else c :: replaceAllExactAux pat repl n rest

/-- `text.replace(/\./g, repl)`-style exact global replacement. -/
def replaceAllExact (s pat repl : String) : String :=
  ⟨replaceAllExactAux pat.data repl.data s.data.length s.data⟩

/-! ## PersonaManager and EmotionModulator (persona.ts) -/

/-- One entry of the modulator's bounded emotion history. -/
structure EmotionHistoryEntry where
  emotion : String
  timestamp : ℤ
  intensity : ℚ
deriving DecidableEq

/-- The `EmotionModulator` instance state. -/
structure EmotionModulator where
  persona : Option Persona
  storyContext : List (String × Value)
  currentEmotion : String
  emotionHistory : List EmotionHistoryEntry
deriving DecidableEq

/-- One row of the fixed emotion→modifier table.  No table row defines a
`breathiness` delta, so that lookup is always `undefined` in the source and
`(… || 0)` makes the delta 0. -/
structure EmotionModifiers where
  pitch : ℚ
  speed : ℚ
  warmth : ℚ
  assertiveness : ℚ
  intensity : ℚ
deriving DecidableEq

/-- The fixed emotion→modifier table of `getEmotionModifiers` (decimals of
the source written as exact rationals: e.g. `mkRat 21 20` is 1.05). -/
def emotionModifierTable : List (String × EmotionModifiers) :=
  [("happy",
    { pitch := 2, speed := mkRat 21 20, warmth := mkRat 3 10
      assertiveness := mkRat (-1) 10, intensity := mkRat 3 5 }),
   ("sad",
    { pitch := -3, speed := mkRat 9 10, warmth := mkRat 1 5
      assertiveness := mkRat (-1) 5, intensity := mkRat 1 2 }),
   ("angry",
    { pitch := 3, speed := mkRat 11 10, warmth := mkRat (-3) 10
      assertiveness := mkRat 3 10, intensity := mkRat 4 5 }),
   ("fearful",
    { pitch := 4, speed := mkRat 6 5, warmth := mkRat 1 10
      assertiveness := mkRat (-3) 10, intensity := mkRat 7 10 }),
   ("surprised",
    { pitch := 5, speed := mkRat 23 20, warmth := 0
      assertiveness := 0, intensity := mkRat 3 5 }),
   ("disgusted",
    { pitch := -2, speed := mkRat 19 20, warmth := mkRat (-1) 5
      assertiveness := mkRat 1 10, intensity := mkRat 1 2 }),
   ("neutral",
    { pitch := 0, speed := 1, warmth := 0
      assertiveness := 0, intensity := mkRat 3 10 }),
   ("loving",
    { pitch := 1, speed := mkRat 19 20, warmth := mkRat 2 5
      assertiveness := mkRat (-1) 10, intensity := mkRat 3 5 }),
   ("passionate",
    { pitch := 2, speed := mkRat 21 20, warmth := mkRat 3 10
      assertiveness := mkRat 1 5, intensity := mkRat 7 10 }),
   ("mysterious",
    { pitch := -1, speed := mkRat 9 10, warmth := mkRat (-1) 10
      assertiveness := mkRat 1 10, intensity := mkRat 2 5 }),
   ("cold",
    { pitch := -2, speed := mkRat 19 20, warmth := mkRat (-2) 5
      assertiveness := mkRat 1 5, intensity := mkRat 1 2 }),
   ("fierce",
    { pitch := 4, speed := mkRat 11 10, warmth := mkRat (-1) 5
      assertiveness := mkRat 2 5, intensity := mkRat 4 5 }),
   ("gentle",
    { pitch := 0, speed := mkRat 9 10, warmth := mkRat 3 10
      assertiveness := mkRat (-1) 5, intensity := mkRat 2 5 }),
   ("wise",
    { pitch := -1, speed := mkRat 19 20, warmth := mkRat 1 5
      assertiveness := mkRat 1 10, intensity := mkRat 2 5 }),
   ("playful",
    { pitch := 3, speed := mkRat 11 10, warmth := mkRat 3 10
      assertiveness := mkRat (-1) 10, intensity := mkRat 1 2 })]

/-- The `neutral` table row. -/
def neutralModifiers : EmotionModifiers :=
  { pitch := 0, speed := 1, warmth := 0, assertiveness := 0
    intensity := mkRat 3 10 }

/-- `EmotionModulator.getEmotionModifiers`:
`modifiers[emotion] || modifiers.neutral` (a plain own-property lookup on the
object literal, defaulting to the neutral row for unknown labels). -/
def getEmotionModifiers (emotion : String) : EmotionModifiers :=
  (alGet emotionModifierTable emotion).getD neutralModifiers

/-- `EmotionModulator.modulateVoice`.  Without a bound persona the source
returns a fixed default profile and updates nothing.  Otherwise: pitch is the
base pitch plus the table delta (no clamp), speed is the base speed times the
table factor (`|| 1` guards a falsy factor; no clamp), while warmth,
assertiveness and breathiness are clamped into [0, 1]; the emotion history is
appended and FIFO-trimmed to 20 entries. -/
def modulateVoice (em : EmotionModulator) (targetEmotion : String) (now : ℤ) :
    VoiceProfile × EmotionModulator :=
  match em.persona with
  | none =>
    ({ id := "default"
       provider := "elevenlabs"
       model := "elien_multilingual_v2"
       voiceId := "default"
       accent := none
       pitch := 0
       speed := 1
       emotion := targetEmotion
       warmth := mkRat 1 2
       assertiveness := mkRat 1 2
       breathiness := mkRat 1 5 }, em)
  | some persona =>
    let baseVoice := persona.voiceProfile
    let emotionModifiers := getEmotionModifiers targetEmotion
    let modulatedVoice : VoiceProfile :=
      { baseVoice with
        pitch := baseVoice.pitch + emotionModifiers.pitch
        speed := baseVoice.speed *
          (if emotionModifiers.speed = 0 then 1 else emotionModifiers.speed)
        warmth := max 0 (min 1 (baseVoice.warmth + emotionModifiers.warmth))
        assertiveness :=
          max 0 (min 1 (baseVoice.assertiveness + emotionModifiers.assertiveness))
        breathiness := max 0 (min 1 (baseVoice.breathiness + 0))
        emotion := targetEmotion }
    let hist := em.emotionHistory ++
      [{ emotion := targetEmotion
         timestamp := now
         intensity :=
           if emotionModifiers.intensity = 0 then mkRat 1 2
           else emotionModifiers.intensity }]
    let hist := if hist.length > 20 then hist.tail else hist
    (modulatedVoice,
      { em with currentEmotion := targetEmotion, emotionHistory := hist })

/-- The `PersonaManager` instance state (global persona store). -/
structure PersonaManager where
  personas : List (String × Persona)
  voiceProfiles : List (String × VoiceProfile)
  emotionModulation : List (String × EmotionModulator)
deriving DecidableEq

/-- `Partial<Persona>`. -/
structure PersonaUpdate where
  id : Option String := none
  name : Option String := none
  role : Option String := none
  voiceProfile : Option VoiceProfile := none
  personality : Option PersonalityTraits := none
  backstory : Option String := none
  speechPatterns : Option (List SpeechPattern) := none
  emotionalRange : Option (List String) := none
  relationships : Option (List PersonaRelationship) := none
  uncensored : Option Bool := none
  appearance : Option (Option VisualDescription) := none
deriving DecidableEq

/-- The spread `{ ...persona, ...updates }`. -/
def mergePersona (p : Persona) (u : PersonaUpdate) : Persona :=
  { id := u.id.getD p.id
    name := u.name.getD p.name
    role := u.role.getD p.role
    voiceProfile := u.voiceProfile.getD p.voiceProfile
    personality := u.personality.getD p.personality
    backstory := u.backstory.getD p.backstory
    speechPatterns := u.speechPatterns.getD p.speechPatterns
    emotionalRange := u.emotionalRange.getD p.emotionalRange
    relationships := u.relationships.getD p.relationships
    uncensored := u.uncensored.getD p.uncensored
    appearance := u.appearance.getD p.appearance }

/-- `PersonaManager.updatePersona`. -/
def updatePersona (pm : PersonaManager) (personaId : String)
    (updates : PersonaUpdate) : Option Persona × PersonaManager :=
  match alGet pm.personas personaId with
  | none => (none, pm)
  | some persona =>
    let updated := mergePersona persona updates
    (some updated, { pm with personas := alSet pm.personas personaId updated })

/-- `PersonaManager.applyPersonality`: the coarse personality-driven text
transforms (0.8 and 0.7 thresholds written as exact rationals).  The
`customTraits.brave` read is the JS truthiness of the looked-up number. -/
def applyPersonality (text : String) (persona : Persona) : String :=
  let personality := persona.personality
  let text :=
    if personality.openness > mkRat 4 5 then
      replaceAllCI text "simple" "complex and nuanced"
    else text
  let brave : Bool :=
    match alGet personality.customTraits "brave" with
    | some v => v != 0
    | none => false
  let text :=
    if brave = true ∨ personality.extraversion > mkRat 7 10 then
      replaceFirstCI (replaceFirstCI text "maybe" "definitely") "I think" "I know"
    else text
  personality.customTraits.foldl
    (fun t kv =>
      if kv.2 > mkRat 4 5 ∧ kv.1 = "cunning" then
        replaceAllExact t "." ", and perhaps..."
      else t)
    text

/-- Return shape of `generateDialogue`. -/
structure DialogueResult where
  text : String
  voiceParams : VoiceProfile
deriving DecidableEq

/-- `PersonaManager.generateDialogue`: throws (`none`) for an unknown persona
id; otherwise lazily creates and caches an emotion modulator bound to the
*global* store's persona, modulates the voice, then walks the speech-pattern
rules — each rule whose trigger occurs in the (lowercased) current text rolls
`Math.random()` (the next value of `rands`) against its probability and on
success replaces the whole text — and finally applies the personality
transforms. -/
def generateDialogue (pm : PersonaManager) (personaId context targetEmotion : String)
    (storyContext : List (String × Value)) (rands : ℕ → ℚ) (now : ℤ) :
    Option (DialogueResult × PersonaManager) :=
  match alGet pm.personas personaId with
  | none => none
  | some persona =>
    let modulatorAndPm :=
      match alGet pm.emotionModulation personaId with
      | some m => (m, pm)
      | none =>
        let m : EmotionModulator :=
          { persona := alGet pm.personas personaId
            storyContext := storyContext
            currentEmotion := "neutral"
            emotionHistory := [] }
        (m, { pm with emotionModulation := alSet pm.emotionModulation personaId m })
    let voiceAndModulator := modulateVoice modulatorAndPm.1 targetEmotion now
    let pm2 := { modulatorAndPm.2 with
      emotionModulation :=
        alSet modulatorAndPm.2.emotionModulation personaId voiceAndModulator.2 }
    let textAndRolls := persona.speechPatterns.foldl
      (fun (acc : String × ℕ) pattern =>
        if pattern.triggers.any (fun t => strIncludes (jsToLower acc.1) t) then
          (if rands acc.2 < pattern.probability then pattern.replacement
           else acc.1,
           acc.2 + 1)
        else acc)
      (context, 0)
    let text := applyPersonality textAndRolls.1 persona
    some ({ text := text, voiceParams := voiceAndModulator.1 }, pm2)

/-! ## NarrativeEngine (engine.ts): node rendering and events -/

structure NodeCondition where
  type : String
  value : Value
deriving DecidableEq

/-- `StoryNode`. -/
structure StoryNode where
  id : String
  type : String
  content : String
  voiceProfileId : Option String
  emotionalTone : String
  choices : List StoryChoice
  nextNodes : Option (List (String × String))
  conditions : Option (List NodeCondition)
  metadata : Option (List (String × Value))
deriving DecidableEq

/-- One entry of the engine's render cache. -/
structure RenderCacheEntry where
  data : String
  expiresAt : ℤ
deriving DecidableEq

/-- The object `session.context.worldState` handed to `generateDialogue` as
`Record<string, unknown>` (declaration-order keys). -/
def worldStateToRecord (w : WorldState) : List (String × Value) :=
  [("timeOfDay", Value.vStr w.timeOfDay), ("location", Value.vStr w.location)]
  ++ (match w.weather with
      | some s => [("weather", Value.vStr s)]
      | none => [])
  ++ [("activeCharacters", Value.vArr (w.activeCharacters.map Value.vStr)),
      ("recentEvents", Value.vArr (w.recentEvents.map Value.vStr)),
      ("environmentalFactors", Value.vObj w.environmentalFactors)]

/-- `NarrativeEngine.applyPersonaVoice`: re-reads the session from the
session store and delegates to the *global* `personaManager` store (a thrown
`generateDialogue` error propagates as `none`). -/
def applyPersonaVoice (store : SessionStore) (pm : PersonaManager)
    (sessionId personaId text : String) (rands : ℕ → ℚ) (now : ℤ) :
    Option (String × PersonaManager × SessionStore) :=
  match getSession store sessionId now with
  | (none, store1) => some (text, pm, store1)
  | (some session, store1) =>
    let emotionalTone := session.state.emotionalTone.primary
    match generateDialogue pm personaId text emotionalTone
        (worldStateToRecord session.context.worldState) rands now with
    | none => none
    | some (res, pm1) => some (res.text, pm1, store1)

/-- `node.metadata?.speaker as string | undefined`. -/
def nodeSpeaker (node : StoryNode) : Option String :=
  match node.metadata with
  | none => none
  | some md =>
    match alGet md "speaker" with
    | some (Value.vStr s) => some s
    | _ => none

/-- `NarrativeEngine.renderNode`: serve from the engine cache when fresh;
otherwise take the node content, route it through the persona voice when the
node names a speaker that is present in the session's persona snapshot, and
cache the result for five minutes. -/
def renderNode (store : SessionStore) (pm : PersonaManager)
    (cache : List (String × RenderCacheEntry)) (session : NarrativeSession)
    (node : StoryNode) (rands : ℕ → ℚ) (now : ℤ) :
    Option (String × List (String × RenderCacheEntry) × PersonaManager × SessionStore) :=
  let cacheKey := session.storyId ++ "_" ++ node.id
  let rendered :=
    fun (_ : Unit) =>
      match nodeSpeaker node with
      | some speakerId =>
        if (alGet session.personas speakerId).isSome then
          applyPersonaVoice store pm session.id speakerId node.content rands now
        else some (node.content, pm, store)
      | none => some (node.content, pm, store)
  match alGet cache cacheKey with
  | some cached =>
    if cached.expiresAt > now then some (cached.data, cache, pm, store)
    else
      match rendered () with
      | none => none
      | some (content, pm1, store1) =>
        some (content,
          alSet cache cacheKey
            { data := content, expiresAt := now + 5 * 60 * 1000 },
          pm1, store1)
  | none =>
    match rendered () with
    | none => none
    | some (content, pm1, store1) =>
      some (content,
        alSet cache cacheKey
          { data := content, expiresAt := now + 5 * 60 * 1000 },
        pm1, store1)

/-- The `parameters` record of `triggerEvent`. -/
structure EventParams where
  emotion : Option String := none
  intensity : Option ℚ := none
  key : Option String := none
  value : Option Value := none
  achievement : Option String := none
deriving DecidableEq

/-- `(parameters.intensity as number) || 0.5`: absent or zero falls back to
0.5. -/
def intensityOrDefault (v : Option ℚ) : ℚ :=
  match v with
  | some q => if q = 0 then mkRat 1 2 else q
  | none => mkRat 1 2

/-- `NarrativeEngine.triggerEvent`: the fixed event vocabulary.  Tension
moves by a fixed step of 20, clamped into [0, 100] by `Math.min`/`Math.max`;
`set_emotion` and `add_variable` guard on the truthiness of their
parameters; `unlock_achievement` only logs. -/
def triggerEvent (st : SessionStore) (sessionId eventType : String)
    (params : EventParams) (now : ℤ) : SessionStore :=
  match getSession st sessionId now with
  | (none, st1) => st1
  | (some session, st1) =>
    if eventType = "increase_tension" then
      (updateState st1 sessionId
        { tensionLevel := some (min 100 (session.state.tensionLevel + 20)) }
        now).2
    else if eventType = "decrease_tension" then
      (updateState st1 sessionId
        { tensionLevel := some (max 0 (session.state.tensionLevel - 20)) }
        now).2
    else if eventType = "set_emotion" then
      match params.emotion with
      | some e =>
        if e ≠ "" then
          setEmotionalTone st1 sessionId
            { primary := e
              secondary := none
              intensity := intensityOrDefault params.intensity
              transitions := [] } now
        else st1
      | none => st1
    else if eventType = "add_variable" then
      match params.key, params.value with
      | some k, some v => if k ≠ "" then setVariable st1 sessionId k v now else st1
      | _, _ => st1
    else if eventType = "unlock_achievement" then st1
    else st1

/-! ## Fixtures: concrete stores for witnesses and counterexamples -/

/-- A live store holding one freshly created session at node `entrance`. -/
def fixtureStore : SessionStore :=
  (createSession (emptyStore DEFAULT_EXPIRY_MS) "s1" "mystery_manor" "p1"
    "text" "entrance" [] 0).2

/-- The session of `fixtureStore`. -/
def fixtureSession : NarrativeSession :=
  (createSession (emptyStore DEFAULT_EXPIRY_MS) "s1" "mystery_manor" "p1"
    "text" "entrance" [] 0).1

/-- The `enter` choice of the spec's rejection scenario. -/
def enterChoice : StoryChoice :=
  { id := "enter"
    text := "Enter through the front door"
    description := none
    targetNode := "foyer"
    conditions := none
    consequences := none
    emotionalImpact := none
    voiceProfile := none }

/-- `fixtureStore` after the session was offered `[enterChoice]`. -/
def offeredStore : SessionStore :=
  setChoices fixtureStore "s1" [enterChoice] 10

/-- The `enter` choice carrying a `branch` consequence. -/
def branchChoice : StoryChoice :=
  { enterChoice with
    consequences := some
      [{ type := "branch", target := "secret", value := Value.vNull, delay := none }] }

/-- `fixtureStore` after the session was offered `[branchChoice]`. -/
def branchStore : SessionStore :=
  setChoices fixtureStore "s1" [branchChoice] 10

/-! ## Properties of `getSession` -/

/-- A read that finds a live session mutates nothing. -/
theorem getSession_some_pair (st : SessionStore) (sid : String) (now : ℤ)
    (s : NarrativeSession) (h : (getSession st sid now).1 = some s) :
    getSession st sid now = (some s, st) ∧ alGet st.sessions sid = some s := by
  cases hh : alGet st.sessions sid with
  | none => simp [getSession, hh] at h
  | some session =>
    cases he : alGet st.sessionExpiry sid with
    | none =>
      simp only [getSession, hh, he] at h ⊢
      obtain rfl : session = s := by simpa using h
      exact ⟨rfl, rfl⟩
    | some expiry =>
      by_cases hc : expiry ≠ 0 ∧ now > expiry
      · simp [getSession, hh, he, hc] at h
      · simp only [getSession, hh, he, if_neg hc] at h ⊢
        obtain rfl : session = s := by simpa using h
        exact ⟨rfl, rfl⟩

/-- A read either leaves the store alone or lazily evicts the read id. -/
theorem getSession_snd_cases (st : SessionStore) (sid : String) (now : ℤ) :
    (getSession st sid now).2 = st ∨
    (getSession st sid now).2 = deleteSession st sid := by
  cases hh : alGet st.sessions sid with
  | none => simp [getSession, hh]
  | some session =>
    cases he : alGet st.sessionExpiry sid with
    | none => simp [getSession, hh, he]
    | some expiry =>
      by_cases hc : expiry ≠ 0 ∧ now > expiry
      · simp [getSession, hh, he, hc]
      · simp [getSession, hh, he, hc]

/-! ## C1: updateState and the story path -/

/-- C1: the claim says `updateState` appends the new node id to `storyPath`
whenever the update's `currentNode` differs from the session's current node.
The source merges the update into `session.state` *before* comparing, so the
comparison reads the already-merged `currentNode` and is never unequal: at
the failing input (live session at `entrance`, update `currentNode :=
"foyer"`) the path stays `["entrance"]` even though `currentNode` becomes
`"foyer"`; the timestamp half of the claim (both `lastActionAt` and
`updatedAt` become `now`) does hold. -/
theorem updateState_path_not_appended_cex :
    ((updateState fixtureStore "s1" { currentNode := some "foyer" } 50).1).map
        (fun s => (s.state.currentNode, s.state.storyPath,
                   s.state.lastActionAt, s.updatedAt))
      = some ("foyer", ["entrance"], 50, 50) := by
  rfl

/-! ## C4: makeChoice rejects a choice id that was not offered -/

/-- C4: for a live session, a `makeChoice` with a choice id absent from the
currently offered choice set returns the null pair and leaves the store —
hence the session's whole state — unchanged. -/
theorem makeChoice_rejects_unoffered (st : SessionStore) (sid cid : String)
    (now : ℤ) (s : NarrativeSession)
    (hlive : (getSession st sid now).1 = some s)
    (habsent : ∀ c ∈ s.state.choices, c.id ≠ cid) :
    makeChoice st sid cid now = ((none, none), st) := by
  obtain ⟨hpair, _⟩ := getSession_some_pair st sid now s hlive
  have hfind : s.state.choices.find? (fun c => c.id == cid) = none := by
    rw [List.find?_eq_none]
    intro c hc
    simpa using habsent c hc
  simp only [makeChoice, hpair, hfind]

/-- The session stored in `offeredStore`. -/
def offeredSession : NarrativeSession :=
  { fixtureSession with
    state := { fixtureSession.state with choices := [enterChoice] }
    updatedAt := 10 }

/-- C4 witness: the spec's rejection scenario — offered `[{id := "enter"}]`,
`makeChoice` with `"explore"` returns the null pair and changes nothing. -/
theorem makeChoice_rejects_unoffered_witness :
    makeChoice offeredStore "s1" "explore" 20 = ((none, none), offeredStore) :=
  makeChoice_rejects_unoffered offeredStore "s1" "explore" 20 offeredSession
    (by rfl) (by decide)

/-! ## C3: path growth of an accepted choice -/

/-- The targets of a consequence list's `branch` consequences, in order. -/
def branchTargets (cs : List StoryConsequence) : List String :=
  (cs.filter (fun c => c.type == "branch")).map (fun c => c.target)

theorem applyConsequence_path (s : NarrativeSession) (c : StoryConsequence)
    (h : c.type ≠ "state") :
    (applyConsequence s c).state.storyPath
      = s.state.storyPath ++ (if c.type = "branch" then [c.target] else []) := by
  by_cases h1 : c.type = "variable"
  · simp [applyConsequence, h1]
  · by_cases h3 : c.type = "branch"
    · simp [applyConsequence, h1, h, h3]
    · by_cases h4 : c.type = "event"
      · simp [applyConsequence, h1, h, h3, h4]
      · simp [applyConsequence, h1, h, h3, h4]

theorem applyConsequence_currentNode (s : NarrativeSession)
    (c : StoryConsequence) (h : c.type ≠ "state") :
    (applyConsequence s c).state.currentNode = s.state.currentNode := by
  by_cases h1 : c.type = "variable"
  · simp [applyConsequence, h1]
  · by_cases h3 : c.type = "branch"
    · simp [applyConsequence, h1, h, h3]
    · by_cases h4 : c.type = "event"
      · simp [applyConsequence, h1, h, h3, h4]
      · simp [applyConsequence, h1, h, h3, h4]

theorem foldl_applyConsequence_path (cs : List StoryConsequence) :
    ∀ s : NarrativeSession, (∀ c ∈ cs, c.type ≠ "state") →
      (cs.foldl applyConsequence s).state.storyPath
        = s.state.storyPath ++ branchTargets cs := by
  induction cs with
  | nil => intro s _; simp [branchTargets]
  | cons c rest ih =>
    intro s h
    have hc : c.type ≠ "state" := h c (List.mem_cons_self _ _)
    have hrest : ∀ c2 ∈ rest, c2.type ≠ "state" :=
      fun c2 hc2 => h c2 (List.mem_cons_of_mem _ hc2)
    simp only [List.foldl_cons]
    rw [ih (applyConsequence s c) hrest, applyConsequence_path s c hc]
    by_cases hb : c.type = "branch"
    · simp [branchTargets, List.filter_cons, hb]
    · simp [branchTargets, List.filter_cons, hb]

theorem applyConsequences_path (s : NarrativeSession) (choice : StoryChoice)
    (h : ∀ c ∈ choice.consequences.getD [], c.type ≠ "state") :
    (applyConsequences s choice).state.storyPath
      = s.state.storyPath ++ branchTargets (choice.consequences.getD []) := by
  cases hcs : choice.consequences with
  | none => simp [applyConsequences, hcs, branchTargets]
  | some cs =>
    rw [hcs] at h
    simp only [applyConsequences, hcs, Option.getD_some] at h ⊢
    exact foldl_applyConsequence_path cs s h

/-- C3 counterexample: the claim says the story path grows by *exactly one*
entry per accepted choice.  With a choice that carries a `branch`
consequence, `applyConsequences` pushes the branch target and the transition
pushes the target node: the path grows from `["entrance"]` by two entries. -/
theorem makeChoice_branch_growth_cex :
    ((makeChoice branchStore "s1" "enter" 20).1.1).map
        (fun s => s.state.storyPath) = some ["entrance", "secret", "foyer"] ∧
    (alGet branchStore.sessions "s1").map (fun s => s.state.storyPath)
      = some ["entrance"] := by
  exact ⟨rfl, rfl⟩

/-- C3 as amended: for every accepted choice, `currentNode` after the call
equals the choice's declared `targetNode`, and the story path equals the path
the choice's consequences leave behind with exactly one entry — the target
node — appended.  The path therefore grows by exactly one entry only when
the consequences leave it unchanged: each `branch` consequence appends one
extra entry first (`applyConsequences_path`), and a `state` consequence
targeting `storyPath` can overwrite the path wholesale before the push. -/
theorem makeChoice_accepted_path (st : SessionStore) (sid cid : String)
    (now : ℤ) (s : NarrativeSession) (choice : StoryChoice)
    (hlive : (getSession st sid now).1 = some s)
    (hfind : s.state.choices.find? (fun c => c.id == cid) = some choice) :
    ((makeChoice st sid cid now).1.1).map
        (fun s1 => (s1.state.storyPath, s1.state.currentNode))
      = some ((applyConsequences s choice).state.storyPath
                ++ [choice.targetNode],
              choice.targetNode) := by
  obtain ⟨hpair, _⟩ := getSession_some_pair st sid now s hlive
  cases hei : choice.emotionalImpact with
  | none =>
    simp only [makeChoice, hpair, hfind, hei]
    rfl
  | some ei =>
    simp only [makeChoice, hpair, hfind, hei]
    rfl

/-- C3 witness: accepting the plain `enter` choice (no consequences) at
`offeredStore` grows the path by exactly one entry and lands on `foyer`. -/
theorem makeChoice_accepted_path_witness :
    ((makeChoice offeredStore "s1" "enter" 20).1.1).map
        (fun s1 => (s1.state.storyPath, s1.state.currentNode))
      = some ((applyConsequences offeredSession enterChoice).state.storyPath
                ++ [enterChoice.targetNode],
              enterChoice.targetNode) :=
  makeChoice_accepted_path offeredStore "s1" "enter" 20 offeredSession
    enterChoice (by rfl) (by rfl)

/-! ## C7: emotion-modulated voice parameters -/

/-- An all-neutral Big-Five vector with no custom traits. -/
def neutralPersonality : PersonalityTraits :=
  { openness := mkRat 1 2
    conscientiousness := mkRat 1 2
    extraversion := mkRat 1 2
    agreeableness := mkRat 1 2
    neuroticism := mkRat 1 2
    customTraits := [] }

/-- A voice profile sitting at the declared maximum pitch of 12. -/
def maxPitchProfile : VoiceProfile :=
  { id := "vp1"
    provider := "elevenlabs"
    model := "eleven_multilingual_v2"
    voiceId := "v1"
    accent := none
    pitch := 12
    speed := 1
    emotion := "neutral"
    warmth := mkRat 1 2
    assertiveness := mkRat 1 2
    breathiness := mkRat 1 5 }

/-- A persona carrying `maxPitchProfile`. -/
def pitchPersona : Persona :=
  { id := "p"
    name := "P"
    role := "npc"
    voiceProfile := maxPitchProfile
    personality := neutralPersonality
    backstory := ""
    speechPatterns := []
    emotionalRange := ["neutral"]
    relationships := []
    uncensored := true
    appearance := none }

/-- A fresh emotion modulator bound to `pitchPersona`. -/
def pitchModulator : EmotionModulator :=
  { persona := some pitchPersona
    storyContext := []
    currentEmotion := "neutral"
    emotionHistory := [] }

/-- C7 counterexample: the claim says all five emotion-adjusted voice
parameters are clamped to their valid bounded ranges.  Pitch is declared
-12..12 but `modulateVoice` adds the table delta with no clamp: from the
valid base pitch 12, the `surprised` delta (+5) yields 17 > 12. -/
theorem modulateVoice_pitch_unclamped_cex :
    (modulateVoice pitchModulator "surprised" 0).1.pitch = 17 ∧
    ¬(modulateVoice pitchModulator "surprised" 0).1.pitch ≤ 12 := by
  have hp : (modulateVoice pitchModulator "surprised" 0).1.pitch
      = 12 + (getEmotionModifiers "surprised").pitch := by
    simp [modulateVoice, pitchModulator, pitchPersona, maxPitchProfile]
  have hm : (getEmotionModifiers "surprised").pitch = 5 := rfl
  rw [hp, hm]
  norm_num

/-- C7 as amended: `modulateVoice` clamps warmth, assertiveness and
breathiness into [0, 1]; pitch is adjusted additively and speed
multiplicatively *without* clamping; and an unknown emotion label (one with
no row in the modifier table) uses the `neutral` modifier row. -/
theorem modulateVoice_clamps_and_defaults (em : EmotionModulator) (p : Persona)
    (targetEmotion : String) (now : ℤ) (hp : em.persona = some p) :
    (0 ≤ (modulateVoice em targetEmotion now).1.warmth ∧
      (modulateVoice em targetEmotion now).1.warmth ≤ 1) ∧
    (0 ≤ (modulateVoice em targetEmotion now).1.assertiveness ∧
      (modulateVoice em targetEmotion now).1.assertiveness ≤ 1) ∧
    (0 ≤ (modulateVoice em targetEmotion now).1.breathiness ∧
      (modulateVoice em targetEmotion now).1.breathiness ≤ 1) ∧
    (modulateVoice em targetEmotion now).1.pitch
      = p.voiceProfile.pitch + (getEmotionModifiers targetEmotion).pitch ∧
    (modulateVoice em targetEmotion now).1.speed
      = p.voiceProfile.speed *
          (if (getEmotionModifiers targetEmotion).speed = 0 then 1
           else (getEmotionModifiers targetEmotion).speed) ∧
    (alGet emotionModifierTable targetEmotion = none →
      getEmotionModifiers targetEmotion = neutralModifiers) := by
  have h01 : (0 : ℚ) ≤ 1 := by norm_num
  refine ⟨⟨?_, ?_⟩, ⟨?_, ?_⟩, ⟨?_, ?_⟩, ?_, ?_, ?_⟩
  · simp only [modulateVoice, hp]
    exact le_max_left 0 _
  · simp only [modulateVoice, hp]
    exact max_le h01 (min_le_left 1 _)
  · simp only [modulateVoice, hp]
    exact le_max_left 0 _
  · simp only [modulateVoice, hp]
    exact max_le h01 (min_le_left 1 _)
  · simp only [modulateVoice, hp]
    exact le_max_left 0 _
  · simp only [modulateVoice, hp]
    exact max_le h01 (min_le_left 1 _)
  · simp only [modulateVoice, hp]
  · simp only [modulateVoice, hp]
  · intro h
    simp [getEmotionModifiers, h]

/-- C7 witness: `modulateVoice` at `pitchModulator` with the `angry`
emotion. -/
theorem modulateVoice_clamps_and_defaults_witness :
    (0 ≤ (modulateVoice pitchModulator "angry" 0).1.warmth ∧
      (modulateVoice pitchModulator "angry" 0).1.warmth ≤ 1) ∧
    (0 ≤ (modulateVoice pitchModulator "angry" 0).1.assertiveness ∧
      (modulateVoice pitchModulator "angry" 0).1.assertiveness ≤ 1) ∧
    (0 ≤ (modulateVoice pitchModulator "angry" 0).1.breathiness ∧
      (modulateVoice pitchModulator "angry" 0).1.breathiness ≤ 1) ∧
    (modulateVoice pitchModulator "angry" 0).1.pitch
      = pitchPersona.voiceProfile.pitch + (getEmotionModifiers "angry").pitch ∧
    (modulateVoice pitchModulator "angry" 0).1.speed
      = pitchPersona.voiceProfile.speed *
          (if (getEmotionModifiers "angry").speed = 0 then 1
           else (getEmotionModifiers "angry").speed) ∧
    (alGet emotionModifierTable "angry" = none →
      getEmotionModifiers "angry" = neutralModifiers) :=
  modulateVoice_clamps_and_defaults pitchModulator pitchPersona "angry" 0 rfl

/-! ## C8: tension level stays within [0, 100] -/

/-- A sequence of `triggerEvent` calls on one session (event type and
timestamp each; no parameters, as the tension events take none). -/
def runTensionEvents (st : SessionStore) (sid : String)
    (events : List (String × ℤ)) : SessionStore :=
  events.foldl (fun acc ev => triggerEvent acc sid ev.1 {} ev.2) st

theorem triggerEvent_tension_step (st : SessionStore) (sid ev : String)
    (p : EventParams) (t : ℤ)
    (hev : ev = "increase_tension" ∨ ev = "decrease_tension")
    (hnd : (alKeys st.sessions).Nodup)
    (hinv : ∀ s, alGet st.sessions sid = some s →
      0 ≤ s.state.tensionLevel ∧ s.state.tensionLevel ≤ 100) :
    (alKeys (triggerEvent st sid ev p t).sessions).Nodup ∧
    ∀ s, alGet (triggerEvent st sid ev p t).sessions sid = some s →
      0 ≤ s.state.tensionLevel ∧ s.state.tensionLevel ≤ 100 := by
  cases hpair : getSession st sid t with
  | mk os st1 =>
    cases os with
    | none =>
      have hres : triggerEvent st sid ev p t = st1 := by
        unfold triggerEvent
        rw [hpair]
      have hcases := getSession_snd_cases st sid t
      rw [hpair] at hcases
      rcases hcases with h1 | h1
      · rw [hres, show st1 = st from h1]
        exact ⟨hnd, hinv⟩
      · rw [hres, show st1 = deleteSession st sid from h1]
        refine ⟨alKeys_alDelete_nodup _ _ hnd, ?_⟩
        intro s hs
        dsimp only [deleteSession] at hs
        rw [alGet_alDelete_self st.sessions sid hnd] at hs
        exact absurd hs (by simp)
    | some session =>
      have hfst : (getSession st sid t).1 = some session := by rw [hpair]
      obtain ⟨hpair2, hmem⟩ := getSession_some_pair st sid t session hfst
      obtain ⟨hlo, hhi⟩ := hinv session hmem
      rcases hev with rfl | rfl
      · have h1 : triggerEvent st sid "increase_tension" p t
            = (updateState st sid
                { tensionLevel :=
                    some (min 100 (session.state.tensionLevel + 20)) } t).2 := by
          unfold triggerEvent
          rw [hpair2]
          rfl
        have hres : (updateState st sid
              { tensionLevel :=
                  some (min 100 (session.state.tensionLevel + 20)) } t).2
            = { st with sessions := alSet st.sessions sid
                                      { session with
                                        state := { session.state with
                                          tensionLevel := min 100 (session.state.tensionLevel + 20)
                                          lastActionAt := t }
                                        updatedAt := t } } := by
          unfold updateState
          rw [hpair2]
          rfl
        rw [h1, hres]
        refine ⟨alKeys_alSet_nodup _ _ _ hnd, ?_⟩
        intro s hs
        dsimp only at hs
        rw [alGet_alSet_self] at hs
        obtain rfl : _ = s := Option.some.inj hs
        exact ⟨le_min (by norm_num) (by linarith), min_le_left _ _⟩
      · have h1 : triggerEvent st sid "decrease_tension" p t
            = (updateState st sid
                { tensionLevel :=
                    some (max 0 (session.state.tensionLevel - 20)) } t).2 := by
          unfold triggerEvent
          rw [hpair2]
          rfl
        have hres : (updateState st sid
              { tensionLevel :=
                  some (max 0 (session.state.tensionLevel - 20)) } t).2
            = { st with sessions := alSet st.sessions sid
                                      { session with
                                        state := { session.state with
                                          tensionLevel := max 0 (session.state.tensionLevel - 20)
                                          lastActionAt := t }
                                        updatedAt := t } } := by
          unfold updateState
          rw [hpair2]
          rfl
        rw [h1, hres]
        refine ⟨alKeys_alSet_nodup _ _ _ hnd, ?_⟩
        intro s hs
        dsimp only at hs
        rw [alGet_alSet_self] at hs
        obtain rfl : _ = s := Option.some.inj hs
        exact ⟨le_max_left _ _, max_le (by norm_num) (by linarith)⟩

/-- C8: starting from a session whose tension level lies in [0, 100], any
sequence of `increase_tension` / `decrease_tension` events keeps the
session's tension level within [0, 100]: each event moves it by the fixed
step of 20 and `Math.min`/`Math.max` clamp it at the bounds. -/
theorem tension_stays_bounded (st : SessionStore) (sid : String)
    (events : List (String × ℤ)) (s0 : NarrativeSession)
    (hev : ∀ e ∈ events,
      e.1 = "increase_tension" ∨ e.1 = "decrease_tension")
    (hnd : (alKeys st.sessions).Nodup)
    (hfound : alGet st.sessions sid = some s0)
    (hlo : 0 ≤ s0.state.tensionLevel) (hhi : s0.state.tensionLevel ≤ 100) :
    ∀ s, alGet (runTensionEvents st sid events).sessions sid = some s →
      0 ≤ s.state.tensionLevel ∧ s.state.tensionLevel ≤ 100 := by
  have hinv : ∀ s, alGet st.sessions sid = some s →
      0 ≤ s.state.tensionLevel ∧ s.state.tensionLevel ≤ 100 := by
    intro s hs
    rw [hfound] at hs
    obtain rfl := Option.some.inj hs
    exact ⟨hlo, hhi⟩
  clear hfound hlo hhi
  induction events generalizing st with
  | nil => exact hinv
  | cons e rest ih =>
    have he := hev e (List.mem_cons_self _ _)
    have hrest : ∀ e2 ∈ rest,
        e2.1 = "increase_tension" ∨ e2.1 = "decrease_tension" :=
      fun e2 h2 => hev e2 (List.mem_cons_of_mem _ h2)
    obtain ⟨hnd2, hinv2⟩ := triggerEvent_tension_step st sid e.1 {} e.2 he hnd hinv
    exact ih (triggerEvent st sid e.1 {} e.2) hrest hnd2 hinv2

/-- The store after four tension events from a fresh session (tension 0). -/
def c8Store : SessionStore :=
  runTensionEvents fixtureStore "s1"
    [("increase_tension", 1), ("increase_tension", 2),
     ("decrease_tension", 3), ("decrease_tension", 4)]

/-- The session those four events leave in the store. -/
def c8Result : NarrativeSession :=
  (alGet c8Store.sessions "s1").getD fixtureSession

/-- C8 witness: four tension events from a fresh session (tension 0). -/
theorem tension_stays_bounded_witness :
    0 ≤ c8Result.state.tensionLevel ∧ c8Result.state.tensionLevel ≤ 100 :=
  tension_stays_bounded fixtureStore "s1"
    [("increase_tension", 1), ("increase_tension", 2),
     ("decrease_tension", 3), ("decrease_tension", 4)] fixtureSession
    (by decide) (by decide) (by rfl) (by decide) (by decide)
    c8Result (by rfl)

/-! ## C9: export / import round trip -/

theorem alSet_append_of_not_mem (l : List (String × α)) (k : String) (v : α)
    (h : k ∉ alKeys l) : alSet l k v = l ++ [(k, v)] := by
  induction l with
  | nil => simp [alSet]
  | cons hd tl ih =>
    obtain ⟨k0, v0⟩ := hd
    simp only [alKeys, List.map_cons, List.mem_cons, not_or] at h
    simp only [alSet, if_neg (fun he : k0 = k => h.1 he.symm), List.cons_append]
    rw [ih h.2]

theorem foldl_alSet_of_disjoint (l : List (String × α)) :
    ∀ acc : List (String × α),
      (∀ kv ∈ l, kv.1 ∉ alKeys acc) → (alKeys l).Nodup →
      l.foldl (fun acc kv => alSet acc kv.1 kv.2) acc = acc ++ l := by
  induction l with
  | nil => intro acc _ _; simp
  | cons hd tl ih =>
    intro acc hdisj hnd
    obtain ⟨k, v⟩ := hd
    simp only [alKeys, List.map_cons, List.nodup_cons] at hnd
    have hk : k ∉ alKeys acc := hdisj (k, v) (List.mem_cons_self _ _)
    simp only [List.foldl_cons]
    rw [alSet_append_of_not_mem acc k v hk]
    rw [ih (acc ++ [(k, v)]) ?_ hnd.2]
    · simp
    · intro kv hkv
      have h1 : kv.1 ∉ alKeys acc := hdisj kv (List.mem_cons_of_mem _ hkv)
      have h2 : kv.1 ≠ k := by
        intro he
        exact hnd.1 (he ▸ List.mem_map_of_mem Prod.fst hkv)
      have hke : alKeys (acc ++ [(k, v)]) = alKeys acc ++ [k] := by
        simp [alKeys]
      rw [hke]
      intro hcon
      rcases List.mem_append.mp hcon with hmem | hmem
      · exact h1 hmem
      · exact h2 (List.mem_singleton.mp hmem)

/-- With unique keys (the invariant of a JS `Map`), flattening to a plain
object is the identity on the entry list. -/
theorem objFromEntries_eq_self (l : List (String × α))
    (hnd : (alKeys l).Nodup) : objFromEntries l = l := by
  unfold objFromEntries
  rw [foldl_alSet_of_disjoint l [] (by simp [alKeys]) hnd]
  simp

/-- C9: for a live session whose `characterStates` map has unique keys (the
`Map` class invariant), `exportSession` followed by `importSession`
reproduces the identical `NarrativeSession` value, the nested
`characterStates` map included; no field is dropped by the export. -/
theorem exportImport_roundtrip (st : SessionStore) (sid : String)
    (now now2 : ℤ) (s : NarrativeSession)
    (hlive : (getSession st sid now).1 = some s)
    (hkeys : (alKeys s.context.characterStates).Nodup) :
    ∃ e, (exportSession st sid now).1 = some e ∧
      ∀ st2 : SessionStore, (importSession st2 e now2).1 = some s := by
  obtain ⟨hpair, _⟩ := getSession_some_pair st sid now s hlive
  refine ⟨{ id := s.id, storyId := s.storyId, playerId := s.playerId
            channel := s.channel, state := s.state
            context := { s.context with
              characterStates := objFromEntries s.context.characterStates }
            personas := s.personas, createdAt := s.createdAt
            updatedAt := s.updatedAt, metadata := s.metadata }, ?_, ?_⟩
  · simp only [exportSession, hpair]
  · intro st2
    simp only [importSession]
    rw [objFromEntries_eq_self _ hkeys]
    rw [objFromEntries_eq_self _ hkeys]

/-- A session with a non-trivial `characterStates` map, for the round-trip
witness. -/
def rtSession : NarrativeSession :=
  { fixtureSession with
    context := { fixtureSession.context with
      characterStates :=
        [("alice",
          { id := "alice", name := "Alice", disposition := 10
            relationship := "ally", emotionalState := "calm"
            knowledge := ["the key"], secrets := [], voiceProfile := none }),
         ("bob",
          { id := "bob", name := "Bob", disposition := -5
            relationship := "rival", emotionalState := "wary"
            knowledge := [], secrets := ["the will"], voiceProfile := none })] } }

/-- A live store holding `rtSession`. -/
def rtStore : SessionStore :=
  { sessions := [("s9", rtSession)]
    sessionExpiry := [("s9", DEFAULT_EXPIRY_MS)]
    expiryMs := DEFAULT_EXPIRY_MS }

/-- C9 witness: the round trip at `rtStore`. -/
theorem exportImport_roundtrip_witness :
    ∃ e, (exportSession rtStore "s9" 50).1 = some e ∧
      ∀ st2 : SessionStore, (importSession st2 e 60).1 = some rtSession :=
  exportImport_roundtrip rtStore "s9" 50 60 rtSession (by rfl) (by decide)

/-! ## C5: when getBestModel returns a model -/

theorem head?_isSome_of_ne_nil (l : List α) (h : l ≠ []) :
    l.head?.isSome = true := by
  cases l with
  | nil => exact absurd rfl h
  | cons a as => rfl

theorem getFallbackChain_models (mgr : ModelManager) (rt : String) :
    ((getFallbackChain mgr rt).2).models = mgr.models := by
  cases h : alGet mgr.fallbackChains rt <;> simp [getFallbackChain, h]

theorem getFallbackChain_health (mgr : ModelManager) (rt : String) :
    ((getFallbackChain mgr rt).2).healthStatus = mgr.healthStatus := by
  cases h : alGet mgr.fallbackChains rt <;> simp [getFallbackChain, h]

theorem healthyOf_congr (mgr1 mgr2 : ModelManager)
    (h : mgr1.healthStatus = mgr2.healthStatus) :
    ∀ id0, healthyOf mgr1 id0 = healthyOf mgr2 id0 := by
  intro id0
  unfold healthyOf
  rw [h]

/-- C5 as amended: `getBestModel` returns some model *iff* the fallback
chain for the request type (cached, or built on this call) is non-empty and
at least one registered model is healthy.  In particular — against the
original claim — a request type whose chain is empty (no registered model
has the mapped capability, e.g. `voice_synthesis` against the default
registry) yields null even though healthy models exist, because the empty
chain short-circuits before any fallback runs.  The hypothesis is the
registry invariant that each model is keyed by its own id, which
`registerModel` maintains. -/
theorem getBestModel_some_iff (mgr : ModelManager) (rt : String)
    (hkeys : ∀ kv ∈ mgr.models, kv.2.id = kv.1) :
    ((getBestModel mgr rt).1).isSome = true ↔
      ((getFallbackChain mgr rt).1.chain ≠ [] ∧
        ∃ m ∈ mgr.models.map Prod.snd, healthyOf mgr m.id = true) := by
  rcases hgf : getFallbackChain mgr rt with ⟨chain, mgr1⟩
  have hmodels : mgr1.models = mgr.models := by
    have := getFallbackChain_models mgr rt
    rw [hgf] at this
    exact this
  have hhealth : ∀ id0, healthyOf mgr1 id0 = healthyOf mgr id0 := by
    refine healthyOf_congr mgr1 mgr ?_
    have := getFallbackChain_health mgr rt
    rw [hgf] at this
    exact this
  simp only [getBestModel, hgf]
  by_cases hne : chain.chain = []
  · simp [hne]
  · rw [if_neg hne]
    generalize hfs : chain.chain.findSome? _ = fsres
    cases fsres with
    | some model =>
      simp only [Option.isSome_some, true_iff]
      refine ⟨hne, ?_⟩
      obtain ⟨a, _, hfa⟩ := List.exists_of_findSome?_eq_some hfs
      cases hm : alGet mgr1.models a with
      | none => rw [hm] at hfa; cases hh : alGet mgr1.healthStatus a <;>
          rw [hh] at hfa <;> simp at hfa
      | some m =>
        cases hh : alGet mgr1.healthStatus a with
        | none => rw [hm, hh] at hfa; simp at hfa
        | some hinfo =>
          rw [hm, hh] at hfa
          dsimp only at hfa
          by_cases hcond : hinfo.healthy && m.censorshipLevel == 0
          · rw [if_pos hcond] at hfa
            obtain rfl : m = model := Option.some.inj hfa
            rw [hmodels] at hm
            have hmem := alGet_mem _ _ _ hm
            have hid : m.id = a := hkeys (a, m) hmem
            refine ⟨m, List.mem_map_of_mem Prod.snd hmem, ?_⟩
            rw [hid]
            unfold healthyOf
            rw [show alGet mgr.healthStatus a = some hinfo from by
              rw [← getFallbackChain_health mgr rt, hgf]; exact hh]
            exact (Bool.and_eq_true _ _ ▸ hcond).1
          · rw [if_neg hcond] at hfa
            exact absurd hfa (by simp)
    | none =>
      generalize hcap :
        ((getModelsByCapability mgr1 (getCapabilityForRequest rt)).filter
          (fun m => healthyOf mgr1 m.id)) = capableModels
      cases capableModels with
      | cons m ms =>
        simp only [Option.isSome_some, true_iff]
        refine ⟨hne, ?_⟩
        have hmem : m ∈ (getModelsByCapability mgr1
            (getCapabilityForRequest rt)).filter (fun m => healthyOf mgr1 m.id) := by
          rw [hcap]; exact List.mem_cons_self _ _
        obtain ⟨hmem2, hhealthy⟩ := List.mem_filter.mp hmem
        unfold getModelsByCapability at hmem2
        rw [mem_jsSort] at hmem2
        have hmem3 := (List.mem_filter.mp hmem2).1
        rw [hmodels] at hmem3
        refine ⟨m, hmem3, ?_⟩
        rw [← hhealth m.id]
        exact hhealthy
      | nil =>
        dsimp only
        have hiff : (jsSort uncensoredQualityCmp
              ((mgr1.models.map Prod.snd).filter
                (fun m => healthyOf mgr1 m.id))).head?.isSome = true
            ↔ ∃ m ∈ mgr.models.map Prod.snd, healthyOf mgr m.id = true := by
          constructor
          · intro hhead
            obtain ⟨m, hm⟩ := Option.isSome_iff_exists.mp hhead
            have hmem := List.mem_of_mem_head? (Option.mem_def.mpr hm)
            rw [mem_jsSort] at hmem
            obtain ⟨hmem2, hh2⟩ := List.mem_filter.mp hmem
            rw [hmodels] at hmem2
            refine ⟨m, hmem2, ?_⟩
            rw [← hhealth m.id]
            exact hh2
          · rintro ⟨m, hmem, hh2⟩
            apply head?_isSome_of_ne_nil
            apply jsSort_ne_nil _ m
            rw [List.mem_filter]
            constructor
            · rw [hmodels]
              exact hmem
            · rw [hhealth m.id]
              exact hh2
        constructor
        · intro hhead
          exact ⟨hne, hiff.mp hhead⟩
        · rintro ⟨_, hex⟩
          exact hiff.mpr hex

/-- The manager produced by the default constructor (the 12 `DEFAULT_MODELS`
registered, all healthy). -/
def defaultManager : ModelManager := mkModelManager 0

/-- C5 counterexample: the claim says model selection returns some model
whenever the registry contains at least one healthy model, and null only for
an empty or fully unhealthy registry.  Against the fully healthy default
registry, `getBestModel "voice_synthesis"` builds an empty chain (no default
model has the `voice` capability) and the empty-chain short-circuit returns
null without trying any fallback. -/
theorem getBestModel_voice_null_cex :
    (getBestModel defaultManager "voice_synthesis").1 = none ∧
    defaultManager.models.length = 12 ∧
    healthyOf defaultManager "llama-3.2-90b" = true := by
  exact ⟨rfl, rfl, rfl⟩

/-- C5 witness: the amended iff applied to the default registry and the
`story_generation` request type. -/
theorem getBestModel_some_iff_witness :
    ((getBestModel defaultManager "story_generation").1).isSome = true ↔
      ((getFallbackChain defaultManager "story_generation").1.chain ≠ [] ∧
        ∃ m ∈ defaultManager.models.map Prod.snd,
          healthyOf defaultManager m.id = true) :=
  getBestModel_some_iff defaultManager "story_generation" (by decide)

/-! ## C10: a failed model never re-enters a cached chain -/

/-- The `ModelManager` operations that run after a failure report: further
registrations, failure and success reports, explicit health updates, usage
records, and the chain-creating side effect shared by `getBestModel`,
`getRotatedModel` and `getFallbackChain` (`useChain`). -/
inductive MOp where
  | register (model : ModelConfig) (now : ℤ)
  | fail (modelId : String) (now : ℤ)
  | success (modelId : String) (latency : ℚ) (now : ℤ)
  | setHealth (modelId : String) (healthy : Bool) (latency : Option ℚ) (now : ℤ)
  | usage (modelId : String)
  | useChain (requestType : String)

/-- One manager operation. -/
def mstep (mgr : ModelManager) : MOp → ModelManager
  | .register m now => registerModel mgr m now
  | .fail id0 now => reportFailure mgr id0 now
  | .success id0 lat now => reportSuccess mgr id0 lat now
  | .setHealth id0 h lat now => setModelHealth mgr id0 h lat now
  | .usage id0 => recordUsage mgr id0
  | .useChain rt => (getFallbackChain mgr rt).2

/-- A sequence of manager operations. -/
def runMOps (mgr : ModelManager) (ops : List MOp) : ModelManager :=
  ops.foldl mstep mgr

theorem alGet_map_values (l : List (String × α)) (f : α → β) (k : String) :
    alGet (l.map (fun kv => (kv.1, f kv.2))) k = (alGet l k).map f := by
  induction l with
  | nil => simp [alGet]
  | cons hd tl ih =>
    obtain ⟨k0, v0⟩ := hd
    by_cases hk : k0 = k
    · simp [alGet, hk]
    · simpa [alGet, hk] using ih

/-- The absent-chain invariant is preserved by every manager operation. -/
theorem mstep_preserves_absent (mgr : ModelManager) (op : MOp)
    (modelId rt : String)
    (h : ∃ ch, alGet mgr.fallbackChains rt = some ch ∧ modelId ∉ ch.chain) :
    ∃ ch, alGet (mstep mgr op).fallbackChains rt = some ch ∧
      modelId ∉ ch.chain := by
  obtain ⟨ch, hch, hmem⟩ := h
  cases op with
  | register m now => exact ⟨ch, hch, hmem⟩
  | fail id0 now =>
    have hrf : alGet (mstep mgr (MOp.fail id0 now)).fallbackChains rt
        = (alGet mgr.fallbackChains rt).map
            (fun c => { c with chain := c.chain.erase id0 }) := by
      exact alGet_map_values mgr.fallbackChains
        (fun c : ModelFallbackChain => { c with chain := c.chain.erase id0 }) rt
    rw [hch] at hrf
    refine ⟨_, hrf, ?_⟩
    intro hcon
    have hcon2 : modelId ∈ ch.chain.erase id0 := hcon
    exact hmem ((ch.chain.erase_sublist id0).subset hcon2)
  | success id0 lat now => exact ⟨ch, hch, hmem⟩
  | setHealth id0 hl lat now => exact ⟨ch, hch, hmem⟩
  | usage id0 => exact ⟨ch, hch, hmem⟩
  | useChain rt2 =>
    show ∃ ch2, alGet ((getFallbackChain mgr rt2).2).fallbackChains rt
      = some ch2 ∧ modelId ∉ ch2.chain
    cases hget : alGet mgr.fallbackChains rt2 with
    | some chain2 =>
      simp only [getFallbackChain, hget]
      exact ⟨ch, hch, hmem⟩
    | none =>
      simp only [getFallbackChain, hget]
      by_cases hrt : rt = rt2
      · subst hrt
        rw [hget] at hch
        exact absurd hch (by simp)
      · rw [alGet_alSet_ne _ _ _ _ hrt]
        exact ⟨ch, hch, hmem⟩

theorem runMOps_preserves_absent (ops : List MOp) (mgr : ModelManager)
    (modelId rt : String)
    (h : ∃ ch, alGet mgr.fallbackChains rt = some ch ∧ modelId ∉ ch.chain) :
    ∃ ch, alGet (runMOps mgr ops).fallbackChains rt = some ch ∧
      modelId ∉ ch.chain := by
  induction ops generalizing mgr with
  | nil => exact h
  | cons op rest ih =>
    exact ih (mstep mgr op) (mstep_preserves_absent mgr op modelId rt h)

/-- C10: once `reportFailure(modelId)` has run, the model id is spliced out
of every already-cached fallback chain (here: the chain cached for `rt`,
which as a real chain contains the id at most once), and no subsequent
manager operation — registration, further failure or success reports, health
updates, usage records or chain use/creation — re-inserts it into that
chain; in particular `reportSuccess` restores the model's health status and
leaves every cached chain untouched. -/
theorem reportFailure_removes_model_forever (mgr : ModelManager)
    (modelId rt : String) (now : ℤ) (ch : ModelFallbackChain)
    (ops : List MOp)
    (hcached : alGet mgr.fallbackChains rt = some ch)
    (hcount : ch.chain.count modelId ≤ 1) :
    (∃ ch2, alGet (runMOps (reportFailure mgr modelId now) ops).fallbackChains
        rt = some ch2 ∧ modelId ∉ ch2.chain) ∧
    (∀ (mgr2 : ModelManager) (latency : ℚ) (t : ℤ),
      (reportSuccess mgr2 modelId latency t).fallbackChains
          = mgr2.fallbackChains ∧
      healthyOf (reportSuccess mgr2 modelId latency t) modelId = true) := by
  constructor
  · apply runMOps_preserves_absent
    have hrf : alGet (reportFailure mgr modelId now).fallbackChains rt
        = (alGet mgr.fallbackChains rt).map
            (fun c => { c with chain := c.chain.erase modelId }) := by
      exact alGet_map_values mgr.fallbackChains
        (fun c : ModelFallbackChain => { c with chain := c.chain.erase modelId }) rt
    rw [hcached] at hrf
    refine ⟨_, hrf, ?_⟩
    intro hcon
    have hcon2 : modelId ∈ ch.chain.erase modelId := hcon
    have hc := List.count_erase_self modelId ch.chain
    have hpos := List.count_pos_iff.mpr hcon2
    omega
  · intro mgr2 latency t
    constructor
    · rfl
    · unfold reportSuccess recordUsage healthyOf
      dsimp only
      rw [alGet_alSet_self]

/-- A small manager with a cached `story_generation` chain, for the C10
witness. -/
def failFixtureManager : ModelManager :=
  { models :=
      [("m1", { id := "m1", name := "M1", provider := "ollama"
                endpoint := none, capabilities := ["text", "creative"]
                contextWindow := 8192, maxOutput := 4096, quality := 7
                speed := 9, censorshipLevel := 0, costPerToken := 0
                rateLimitRpm := 60 }),
       ("m2", { id := "m2", name := "M2", provider := "ollama"
                endpoint := none, capabilities := ["text", "creative"]
                contextWindow := 8192, maxOutput := 4096, quality := 8
                speed := 8, censorshipLevel := 0, costPerToken := 0
                rateLimitRpm := 60 })]
    rotationConfig := defaultRotationConfig
    fallbackChains :=
      [("story_generation",
        { requestType := "story_generation", chain := ["m1", "m2"]
          currentIndex := 0 })]
    healthStatus :=
      [("m1", { healthy := true, lastCheck := 0, latency := 0 }),
       ("m2", { healthy := true, lastCheck := 0, latency := 0 })]
    usageCount := [] }

/-- C10 witness: fail `m1`, then report a success for `m1` and touch another
request type; the cached `story_generation` chain never regains `m1`. -/
theorem reportFailure_removes_model_forever_witness :
    (∃ ch2, alGet (runMOps (reportFailure failFixtureManager "m1" 5)
        [MOp.success "m1" 30 7, MOp.useChain "dialogue"]).fallbackChains
        "story_generation" = some ch2 ∧ "m1" ∉ ch2.chain) ∧
    (∀ (mgr2 : ModelManager) (latency : ℚ) (t : ℤ),
      (reportSuccess mgr2 "m1" latency t).fallbackChains
          = mgr2.fallbackChains ∧
      healthyOf (reportSuccess mgr2 "m1" latency t) "m1" = true) :=
  reportFailure_removes_model_forever failFixtureManager "m1"
    "story_generation" 5
    { requestType := "story_generation", chain := ["m1", "m2"]
      currentIndex := 0 }
    [MOp.success "m1" 30 7, MOp.useChain "dialogue"] (by rfl) (by decide)

/-! ## C6: rendered content and the persona snapshot -/

/-- The butler persona as it stood when the session snapshot was taken: its
one speech pattern always (probability 1) replaces text containing `hello`. -/
def butlerPersonaA : Persona :=
  { id := "butler"
    name := "Jeeves"
    role := "npc"
    voiceProfile := maxPitchProfile
    personality := neutralPersonality
    backstory := "Loyal servant of Blackwood family for 40 years."
    speechPatterns :=
      [{ triggers := ["hello"], patterns := [".*"]
         replacement := "Greetings from A", probability := 1 }]
    emotionalRange := ["neutral"]
    relationships := []
    uncensored := false
    appearance := none }

/-- The global persona store at session start. -/
def pmStoreA : PersonaManager :=
  { personas := [("butler", butlerPersonaA)]
    voiceProfiles := []
    emotionModulation := [] }

/-- The global persona store after an `updatePersona` edit made *after* the
session started: only the pattern's replacement text changed. -/
def pmStoreB : PersonaManager :=
  (updatePersona pmStoreA "butler"
    { speechPatterns := some
        [{ triggers := ["hello"], patterns := [".*"]
           replacement := "Greetings from B", probability := 1 }] }).2

/-- A session whose persona snapshot holds `butlerPersonaA` (taken at
session start, before the edit). -/
def snapshotSession : NarrativeSession :=
  (createSession (emptyStore DEFAULT_EXPIRY_MS) "s6" "mystery_manor" "p1"
    "text" "entrance" [("butler", butlerPersonaA)] 0).1

/-- The store holding `snapshotSession`. -/
def snapshotStore : SessionStore :=
  (createSession (emptyStore DEFAULT_EXPIRY_MS) "s6" "mystery_manor" "p1"
    "text" "entrance" [("butler", butlerPersonaA)] 0).2

/-- A node spoken by the butler. -/
def butlerNode : StoryNode :=
  { id := "entrance"
    type := "dialogue"
    content := "hello there"
    voiceProfileId := none
    emotionalTone := "neutral"
    choices := []
    nextNodes := none
    conditions := none
    metadata := some [("speaker", Value.vStr "butler")] }

/-- A fixed random stream (every roll 0, below every probability). -/
def zeroRand : ℕ → ℚ := fun _ => 0

/-- C6: the claim says rendered node content depends only on the session's
persona snapshot, so a global persona edit after session start cannot change
the output.  In the code, `renderNode` checks the snapshot but then routes
the content through the *global* `personaManager.generateDialogue` (the
locally bound snapshot persona is left unused), so two runs over the same
session and the same random rolls — differing only in an `updatePersona`
edit to the global store — render different content. -/
theorem renderNode_reads_global_store_cex :
    ((renderNode snapshotStore pmStoreA [] snapshotSession butlerNode
        zeroRand 5).map (fun r => r.1) = some "Greetings from A") ∧
    ((renderNode snapshotStore pmStoreB [] snapshotSession butlerNode
        zeroRand 5).map (fun r => r.1) = some "Greetings from B") ∧
    ("Greetings from A" ≠ "Greetings from B") := by
  exact ⟨rfl, rfl, by decide⟩

/-! ## C2: lazy TTL expiry on read

Every `SessionManager` operation that touches a session, with its call
timestamp; `updateContext` and `updatePreferences` (plain merges that also
only refresh `updatedAt` and never touch the expiry map) are not in the
vocabulary but would preserve the same invariant, and `importSession`
installs a session with a historical `updatedAt` under a fresh TTL and is
outside this claim (its sources are `createSession`/`getSession`). -/

inductive SessionOp where
  | create (sessionId storyId playerId channel initialNode : String)
      (personas : List (String × Persona))
  | read (sessionId : String)
  | update (sessionId : String) (updates : NarrativeStateUpdate)
  | offer (sessionId : String) (choices : List StoryChoice)
  | choose (sessionId choiceId : String)
  | tone (sessionId : String) (t : EmotionalTone)
  | setVar (sessionId key : String) (v : Value)
  | playtime (sessionId : String) (ms : ℤ)
  | save (sessionId spId description : String) (thumbnail : Option String)
  | load (sessionId savePointId : String)
  | remove (sessionId : String)

/-- One store operation at its `Date.now()` timestamp. -/
def sstep (st : SessionStore) : SessionOp → ℤ → SessionStore
  | .create sid story pid ch node prs, now =>
    (createSession st sid story pid ch node prs now).2
  | .read sid, now => (getSession st sid now).2
  | .update sid u, now => (updateState st sid u now).2
  | .offer sid cs, now => setChoices st sid cs now
  | .choose sid cid, now => (makeChoice st sid cid now).2
  | .tone sid tn, now => setEmotionalTone st sid tn now
  | .setVar sid k v, now => setVariable st sid k v now
  | .playtime sid ms, now => addPlaytime st sid ms now
  | .save sid spid d th, now => (createSavePoint st sid spid d th now).2
  | .load sid spid, now => (loadSavePoint st sid spid now).2
  | .remove sid, _ => deleteSession st sid

/-- Run a timed trace of store operations. -/
def runTrace (st : SessionStore) : List (SessionOp × ℤ) → SessionStore
  | [] => st
  | opt :: rest => runTrace (sstep st opt.1 opt.2) rest

/-- The trace's timestamps are nondecreasing and bounded below
(`Date.now()` is monotone). -/
def TimesOk : ℤ → List (SessionOp × ℤ) → Prop
  | _, [] => True
  | lo, opt :: rest => lo ≤ opt.2 ∧ TimesOk opt.2 rest

/-- The store invariant at current time `t`: keys are unique (JS `Map`s),
every stored session was last written no later than `t`, and its expiry
entry is positive (truthy) and at most `updatedAt + ttl` — because the
expiry is set to creation time + ttl and never refreshed afterwards, while
every mutation moves `updatedAt` forward. -/
def StoreInv (ttl t : ℤ) (st : SessionStore) : Prop :=
  st.expiryMs = ttl ∧
  (alKeys st.sessions).Nodup ∧
  (alKeys st.sessionExpiry).Nodup ∧
  ∀ sid s, alGet st.sessions sid = some s →
    s.updatedAt ≤ t ∧
    ∃ e, alGet st.sessionExpiry sid = some e ∧ 0 < e ∧ e ≤ s.updatedAt + ttl

theorem storeInv_mono (ttl t t' : ℤ) (st : SessionStore) (hle : t ≤ t')
    (h : StoreInv ttl t st) : StoreInv ttl t' st := by
  obtain ⟨httl, hnd1, hnd2, hbound⟩ := h
  refine ⟨httl, hnd1, hnd2, ?_⟩
  intro sid s hs
  obtain ⟨hu, e, he, hpos, hb⟩ := hbound sid s hs
  exact ⟨le_trans hu hle, e, he, hpos, hb⟩

theorem storeInv_delete (ttl t : ℤ) (st : SessionStore) (sid : String)
    (h : StoreInv ttl t st) : StoreInv ttl t (deleteSession st sid) := by
  obtain ⟨httl, hnd1, hnd2, hbound⟩ := h
  refine ⟨httl, alKeys_alDelete_nodup _ _ hnd1,
    alKeys_alDelete_nodup _ _ hnd2, ?_⟩
  intro sid' s hs
  dsimp only [deleteSession] at hs ⊢
  by_cases hsid : sid' = sid
  · subst hsid
    rw [alGet_alDelete_self _ _ hnd1] at hs
    exact absurd hs (by simp)
  · rw [alGet_alDelete_ne _ _ _ hsid] at hs
    obtain ⟨hu, e, he, hpos, hb⟩ := hbound sid' s hs
    refine ⟨hu, e, ?_, hpos, hb⟩
    rw [alGet_alDelete_ne _ _ _ hsid]
    exact he

/-- The possible result stores of one operation: unchanged, a lazy eviction,
a rewrite of one already-present session stamped with the current time, or
a creation that installs a fresh TTL entry alongside. -/
def StepShape (st : SessionStore) (t' : ℤ) (res : SessionStore) : Prop :=
  res = st ∨
  (∃ sid, res = deleteSession st sid) ∨
  (∃ sid s0 s1, alGet st.sessions sid = some s0 ∧
    res = { st with sessions := alSet st.sessions sid s1 } ∧
    s1.updatedAt = t') ∨
  (∃ sid s1,
    res = { st with
      sessions := alSet st.sessions sid s1
      sessionExpiry := alSet st.sessionExpiry sid (t' + st.expiryMs) } ∧
    s1.updatedAt = t')

theorem storeInv_of_shape (ttl t t' : ℤ) (httl : 0 < ttl)
    (st res : SessionStore) (hle : t ≤ t') (h0 : 0 ≤ t')
    (hinv : StoreInv ttl t st) (hshape : StepShape st t' res) :
    StoreInv ttl t' res := by
  rcases hshape with rfl | ⟨sid, rfl⟩ | ⟨sid, s0, s1, hs0, rfl, hupd⟩
    | ⟨sid, s1, rfl, hupd⟩
  · exact storeInv_mono ttl t t' _ hle hinv
  · exact storeInv_delete ttl t' st sid (storeInv_mono ttl t t' st hle hinv)
  · obtain ⟨httl2, hnd1, hnd2, hbound⟩ := hinv
    refine ⟨httl2, alKeys_alSet_nodup _ _ _ hnd1, hnd2, ?_⟩
    intro sid' s hs
    dsimp only at hs ⊢
    by_cases hsid : sid' = sid
    · subst hsid
      rw [alGet_alSet_self] at hs
      obtain rfl := Option.some.inj hs
      obtain ⟨hu0, e, he, hpos, hb⟩ := hbound sid' s0 hs0
      refine ⟨le_of_eq hupd, e, he, hpos, ?_⟩
      rw [hupd]
      linarith
    · rw [alGet_alSet_ne _ _ _ _ hsid] at hs
      obtain ⟨hu, e, he, hpos, hb⟩ := hbound sid' s hs
      exact ⟨le_trans hu hle, e, he, hpos, hb⟩
  · obtain ⟨httl2, hnd1, hnd2, hbound⟩ := hinv
    refine ⟨httl2, alKeys_alSet_nodup _ _ _ hnd1,
      alKeys_alSet_nodup _ _ _ hnd2, ?_⟩
    intro sid' s hs
    dsimp only at hs ⊢
    by_cases hsid : sid' = sid
    · subst hsid
      rw [alGet_alSet_self] at hs
      obtain rfl := Option.some.inj hs
      refine ⟨le_of_eq hupd, t' + st.expiryMs, alGet_alSet_self _ _ _, ?_, ?_⟩
      · rw [httl2]
        linarith
      · rw [hupd, httl2]
    · rw [alGet_alSet_ne _ _ _ _ hsid] at hs
      obtain ⟨hu, e, he, hpos, hb⟩ := hbound sid' s hs
      refine ⟨le_trans hu hle, e, ?_, hpos, hb⟩
      rw [alGet_alSet_ne _ _ _ _ hsid]
      exact he

theorem shape_of_none (st : SessionStore) (sid : String) (t' : ℤ)
    (res : SessionStore) (hg : getSession st sid t' = (none, res)) :
    res = st ∨ ∃ sid2, res = deleteSession st sid2 := by
  have hsnd : (getSession st sid t').2 = res := by rw [hg]
  rcases getSession_snd_cases st sid t' with h1 | h1
  · exact Or.inl (by rw [← hsnd, h1])
  · exact Or.inr ⟨sid, by rw [← hsnd, h1]⟩

theorem sstep_shape (st : SessionStore) (op : SessionOp) (t' : ℤ) :
    StepShape st t' (sstep st op t') := by
  cases op with
  | create sid story pid ch node prs =>
    right; right; right
    exact ⟨sid, _, rfl, rfl⟩
  | read sid =>
    rcases getSession_snd_cases st sid t' with h1 | h1
    · exact Or.inl h1
    · exact Or.inr (Or.inl ⟨sid, h1⟩)
  | update sid u =>
    cases hg : getSession st sid t' with
    | mk os st1 =>
      cases os with
      | none =>
        have hres : sstep st (SessionOp.update sid u) t' = st1 := by
          show (updateState st sid u t').2 = st1
          unfold updateState
          rw [hg]
        rw [hres]
        rcases shape_of_none st sid t' st1 hg with h1 | h1
        · exact Or.inl h1
        · exact Or.inr (Or.inl h1)
      | some session =>
        have hfst : (getSession st sid t').1 = some session := by rw [hg]
        obtain ⟨hpair2, hmem⟩ := getSession_some_pair st sid t' session hfst
        refine Or.inr (Or.inr (Or.inl ?_))
        exact ⟨sid, session, _, hmem,
          (by
            simp only [sstep, updateState, hpair2]
            rfl),
          (by
            cases u.currentNode with
            | none => rfl
            | some cn =>
              dsimp only
              split
              · rfl
              · rfl)⟩
  | offer sid cs =>
    cases hg : getSession st sid t' with
    | mk os st1 =>
      cases os with
      | none =>
        have hres : sstep st (SessionOp.offer sid cs) t' = st1 := by
          show setChoices st sid cs t' = st1
          unfold setChoices
          rw [hg]
        rw [hres]
        rcases shape_of_none st sid t' st1 hg with h1 | h1
        · exact Or.inl h1
        · exact Or.inr (Or.inl h1)
      | some session =>
        have hfst : (getSession st sid t').1 = some session := by rw [hg]
        obtain ⟨hpair2, hmem⟩ := getSession_some_pair st sid t' session hfst
        refine Or.inr (Or.inr (Or.inl ?_))
        exact ⟨sid, session, _, hmem,
          (by
            simp only [sstep, setChoices, hpair2]
            rfl),
          rfl⟩
  | choose sid cid =>
    cases hg : getSession st sid t' with
    | mk os st1 =>
      cases os with
      | none =>
        have hres : sstep st (SessionOp.choose sid cid) t' = st1 := by
          show (makeChoice st sid cid t').2 = st1
          unfold makeChoice
          rw [hg]
        rw [hres]
        rcases shape_of_none st sid t' st1 hg with h1 | h1
        · exact Or.inl h1
        · exact Or.inr (Or.inl h1)
      | some session =>
        have hfst : (getSession st sid t').1 = some session := by rw [hg]
        obtain ⟨hpair2, hmem⟩ := getSession_some_pair st sid t' session hfst
        cases hf : session.state.choices.find? (fun c => c.id == cid) with
        | none =>
          left
          simp only [sstep, makeChoice, hpair2, hf]
        | some choice =>
          refine Or.inr (Or.inr (Or.inl ?_))
          exact ⟨sid, session, _, hmem,
            (by
              simp only [sstep, makeChoice, hpair2, hf]
              rfl),
            (by
              cases choice.emotionalImpact with
              | none => rfl
              | some ei => rfl)⟩
  | tone sid tn =>
    cases hg : getSession st sid t' with
    | mk os st1 =>
      cases os with
      | none =>
        have hres : sstep st (SessionOp.tone sid tn) t' = st1 := by
          show setEmotionalTone st sid tn t' = st1
          unfold setEmotionalTone
          rw [hg]
        rw [hres]
        rcases shape_of_none st sid t' st1 hg with h1 | h1
        · exact Or.inl h1
        · exact Or.inr (Or.inl h1)
      | some session =>
        have hfst : (getSession st sid t').1 = some session := by rw [hg]
        obtain ⟨hpair2, hmem⟩ := getSession_some_pair st sid t' session hfst
        refine Or.inr (Or.inr (Or.inl ?_))
        exact ⟨sid, session, _, hmem,
          (by
            simp only [sstep, setEmotionalTone, hpair2]
            rfl),
          rfl⟩
  | setVar sid k v =>
    cases hg : getSession st sid t' with
    | mk os st1 =>
      cases os with
      | none =>
        have hres : sstep st (SessionOp.setVar sid k v) t' = st1 := by
          show setVariable st sid k v t' = st1
          unfold setVariable
          rw [hg]
        rw [hres]
        rcases shape_of_none st sid t' st1 hg with h1 | h1
        · exact Or.inl h1
        · exact Or.inr (Or.inl h1)
      | some session =>
        have hfst : (getSession st sid t').1 = some session := by rw [hg]
        obtain ⟨hpair2, hmem⟩ := getSession_some_pair st sid t' session hfst
        refine Or.inr (Or.inr (Or.inl ?_))
        exact ⟨sid, session, _, hmem,
          (by
            simp only [sstep, setVariable, hpair2]
            rfl),
          rfl⟩
  | playtime sid ms =>
    cases hg : getSession st sid t' with
    | mk os st1 =>
      cases os with
      | none =>
        have hres : sstep st (SessionOp.playtime sid ms) t' = st1 := by
          show addPlaytime st sid ms t' = st1
          unfold addPlaytime
          rw [hg]
        rw [hres]
        rcases shape_of_none st sid t' st1 hg with h1 | h1
        · exact Or.inl h1
        · exact Or.inr (Or.inl h1)
      | some session =>
        have hfst : (getSession st sid t').1 = some session := by rw [hg]
        obtain ⟨hpair2, hmem⟩ := getSession_some_pair st sid t' session hfst
        refine Or.inr (Or.inr (Or.inl ?_))
        exact ⟨sid, session, _, hmem,
          (by
            simp only [sstep, addPlaytime, hpair2]
            rfl),
          rfl⟩
  | save sid spid d th =>
    cases hg : getSession st sid t' with
    | mk os st1 =>
      cases os with
      | none =>
        have hres : sstep st (SessionOp.save sid spid d th) t' = st1 := by
          show (createSavePoint st sid spid d th t').2 = st1
          unfold createSavePoint
          rw [hg]
        rw [hres]
        rcases shape_of_none st sid t' st1 hg with h1 | h1
        · exact Or.inl h1
        · exact Or.inr (Or.inl h1)
      | some session =>
        have hfst : (getSession st sid t').1 = some session := by rw [hg]
        obtain ⟨hpair2, hmem⟩ := getSession_some_pair st sid t' session hfst
        refine Or.inr (Or.inr (Or.inl ?_))
        exact ⟨sid, session, _, hmem,
          (by
            simp only [sstep, createSavePoint, hpair2]
            rfl),
          rfl⟩
  | load sid spid =>
    cases hg : getSession st sid t' with
    | mk os st1 =>
      cases os with
      | none =>
        have hres : sstep st (SessionOp.load sid spid) t' = st1 := by
          show (loadSavePoint st sid spid t').2 = st1
          unfold loadSavePoint
          rw [hg]
        rw [hres]
        rcases shape_of_none st sid t' st1 hg with h1 | h1
        · exact Or.inl h1
        · exact Or.inr (Or.inl h1)
      | some session =>
        have hfst : (getSession st sid t').1 = some session := by rw [hg]
        obtain ⟨hpair2, hmem⟩ := getSession_some_pair st sid t' session hfst
        cases hf : session.metadata.savePoints.find?
            (fun sp => sp.id == spid) with
        | none =>
          left
          simp only [sstep, loadSavePoint, hpair2, hf]
        | some sp =>
          refine Or.inr (Or.inr (Or.inl ?_))
          exact ⟨sid, session, _, hmem,
            (by
              simp only [sstep, loadSavePoint, hpair2, hf]
              rfl),
            rfl⟩
  | remove sid =>
    exact Or.inr (Or.inl ⟨sid, rfl⟩)

theorem runTrace_inv (ttl : ℤ) (httl : 0 < ttl)
    (ops : List (SessionOp × ℤ)) :
    ∀ (st : SessionStore) (t : ℤ), 0 ≤ t → StoreInv ttl t st →
      TimesOk t ops → ∃ tF, StoreInv ttl tF (runTrace st ops) := by
  induction ops with
  | nil =>
    intro st t _ hinv _
    exact ⟨t, hinv⟩
  | cons opt rest ih =>
    intro st t h0 hinv hts
    obtain ⟨hle, hts2⟩ := hts
    exact ih (sstep st opt.1 opt.2) opt.2 (le_trans h0 hle)
      (storeInv_of_shape ttl t opt.2 httl st _ hle (le_trans h0 hle) hinv
        (sstep_shape st opt.1 opt.2))
      hts2

/-- C2: for every session reachable by a trace of store operations with
monotone nonnegative timestamps from a fresh store, `getSession` returns the
not-found sentinel once the TTL (at default, 7 days) has elapsed since the
session's last mutation (its `updatedAt` stamp), with no sweep in the trace:
the expiry entry was fixed at creation time + TTL and mutations only move
`updatedAt` forward, so elapsed-since-last-mutation implies the lazy
expiry check on the read fires. -/
theorem getSession_after_ttl_elapsed (expiryMs : ℤ) (hms : 0 < expiryMs)
    (ops : List (SessionOp × ℤ)) (hts : TimesOk 0 ops)
    (sid : String) (s : NarrativeSession) (now : ℤ)
    (hfound : alGet (runTrace (emptyStore expiryMs) ops).sessions sid = some s)
    (helapsed : s.updatedAt + expiryMs < now) :
    (getSession (runTrace (emptyStore expiryMs) ops) sid now).1 = none := by
  have hinit : StoreInv expiryMs 0 (emptyStore expiryMs) := by
    refine ⟨rfl, by simp [emptyStore, alKeys], by simp [emptyStore, alKeys], ?_⟩
    intro sid' s' hs'
    simp [emptyStore, alGet] at hs'
  obtain ⟨tF, hinv⟩ :=
    runTrace_inv expiryMs hms ops (emptyStore expiryMs) 0 le_rfl hinit hts
  obtain ⟨_, _, _, hbound⟩ := hinv
  obtain ⟨_, e, he, hpos, hb⟩ := hbound sid s hfound
  have hegt : now > e := by linarith
  have hne : e ≠ 0 := ne_of_gt hpos
  simp [getSession, hfound, he, hne, hegt]

/-- The one-operation trace of the C2 witness. -/
def c2Trace : List (SessionOp × ℤ) :=
  [(SessionOp.create "s1" "mystery_manor" "p1" "text" "entrance" [], 3)]

/-- The session created by `c2Trace`. -/
def c2Session : NarrativeSession :=
  (createSession (emptyStore DEFAULT_EXPIRY_MS) "s1" "mystery_manor" "p1"
    "text" "entrance" [] 3).1

/-- C2 witness: a session created at time 3 is not found by a read at
time 3 + TTL + 1. -/
theorem getSession_after_ttl_elapsed_witness :
    (getSession (runTrace (emptyStore DEFAULT_EXPIRY_MS) c2Trace) "s1"
      (3 + DEFAULT_EXPIRY_MS + 1)).1 = none :=
  getSession_after_ttl_elapsed DEFAULT_EXPIRY_MS (by decide) c2Trace
    ⟨by decide, trivial⟩ "s1" c2Session (3 + DEFAULT_EXPIRY_MS + 1)
    (by rfl) (by decide)

end Moltworker
